import Mathlib

/-!
Shallow embedding of the prediction-market accounting and lifecycle engine
(`contracts/src/PredictionMarketV2.sol`) and proofs about the claims of the
specification.

Conventions of the embedding:
* `uint256` values become `Nat`; the contract's arithmetic on the paths we
  model never wraps (Solidity 0.8 reverts on overflow/underflow), so a
  subtraction that could revert is guarded explicitly and a reverted call is
  an `Except.error`.
* Addresses become `Nat` identifiers; the external ERC20 ledger is modelled
  by per-market ghost accounting fields (`ledgerBalance`, `winningsPaid`,
  `grossSellProceeds`) that record every token flow the contract attributes
  to a market, since the contract itself pools all tokens in one balance.
* Append-only logs (`userTradeHistory`, `priceHistory`), category/type
  indexes, the token whitelist, pausing and role bookkeeping are omitted:
  no mutating path reads them back. Role checks and pause checks only
  further restrict which callers may run an operation; they never change
  what a successful operation does, so they are not modelled.
* `block.timestamp` is passed explicitly as `now`.
-/

namespace Predicta

/-- Fixed-point scale, 1e18, as in the contract. -/
def SCALE : Nat := 1000000000000000000

/-- PAYOUT_PER_SHARE constant: one token unit per winning share. -/
def PAYOUT_PER_SHARE : Nat := SCALE

/-- MIN_MARKET_DURATION = 1 hours. -/
def MIN_MARKET_DURATION : Nat := 3600

/-- MAX_MARKET_DURATION = 365 days. -/
def MAX_MARKET_DURATION : Nat := 31536000

/-- MIN_LMSR_B = 1e18. -/
def MIN_LMSR_B : Nat := SCALE

/-- MAX_LMSR_B = 1000000e18. -/
def MAX_LMSR_B : Nat := 1000000 * SCALE

/-- MarketType enum of the contract. -/
inductive MarketType where
  | STANDARD
  | FREE
deriving DecidableEq, Repr

/-- Option struct of the contract (one outcome of a market). -/
structure MOption where
  name : String
  description : String
  totalShares : Nat
  totalVolume : Nat
  currentPrice : Nat
  isActive : Bool
deriving DecidableEq, Repr

/-- Default value used to model Solidity mapping access to a missing key. -/
def defaultOption : MOption :=
  { name := "", description := "", totalShares := 0, totalVolume := 0,
    currentPrice := 0, isActive := false }

/-- Market struct of the contract, extended with ghost accounting fields
recording the token flows the contract attributes to this market:
`ledgerBalance` (tokens currently held for the market), `winningsPaid`
(cumulative winnings transferred out) and `grossSellProceeds` (cumulative
gross proceeds of sells, before fee deduction). The category field and the
per-market betting-token address do not affect any modelled computation and
are omitted. -/
structure Market where
  question : String
  description : String
  endTime : Nat
  createdAt : Nat
  marketType : MarketType
  creator : Nat
  resolved : Bool
  invalidated : Bool
  disputed : Bool
  validated : Bool
  winningOptionId : Nat
  optionCount : Nat
  totalVolume : Nat
  lmsrB : Nat
  adminInitialLiquidity : Nat
  userLiquidity : Nat
  platformFeesCollected : Nat
  adminLiquidityClaimed : Bool
  earlyResolutionAllowed : Bool
  options : List MOption
  ledgerBalance : Int
  winningsPaid : Nat
  grossSellProceeds : Nat
deriving DecidableEq, Repr

/-- Default market, modelling mapping access to a missing key. -/
def defaultMarket : Market :=
  { question := "", description := "", endTime := 0, createdAt := 0,
    marketType := .STANDARD, creator := 0, resolved := false,
    invalidated := false, disputed := false, validated := false,
    winningOptionId := 0, optionCount := 0, totalVolume := 0, lmsrB := 0,
    adminInitialLiquidity := 0, userLiquidity := 0,
    platformFeesCollected := 0, adminLiquidityClaimed := false,
    earlyResolutionAllowed := false, options := [], ledgerBalance := 0,
    winningsPaid := 0, grossSellProceeds := 0 }

/-- FreeMarketConfig struct of the contract. -/
structure FreeMarketConfig where
  maxFreeParticipants : Nat
  tokensPerParticipant : Nat
  currentFreeParticipants : Nat
  totalPrizePool : Nat
  remainingPrizePool : Nat
  isActive : Bool
deriving DecidableEq, Repr

/-- Zero config, modelling mapping access to a missing key. -/
def zeroFreeConfig : FreeMarketConfig :=
  { maxFreeParticipants := 0, tokensPerParticipant := 0,
    currentFreeParticipants := 0, totalPrizePool := 0,
    remainingPrizePool := 0, isActive := false }

/-- UserPortfolio struct of the contract. -/
structure UserPortfolio where
  totalInvested : Nat
  totalWinnings : Nat
  unrealizedPnL : Int
  realizedPnL : Int
  tradeCount : Nat
deriving DecidableEq, Repr

/-- Zero portfolio, modelling mapping access to a missing key. -/
def zeroPortfolio : UserPortfolio :=
  { totalInvested := 0, totalWinnings := 0, unrealizedPnL := 0,
    realizedPnL := 0, tradeCount := 0 }

/-- Error taxonomy of the specification. A Solidity `require` failure (or an
arithmetic underflow revert) is mapped to the class the specification
assigns to its condition. -/
inductive Err where
  | validationError
  | authorizationError
  | stateError
  | insufficientResourceError
  | slippageError
deriving DecidableEq, Repr

/-- Engine state: the contract's storage restricted to the fields any
modelled operation reads or writes. Markets are a list indexed by the
sequential market id; `marketCount` of the contract is `markets.length`. -/
structure GlobalState where
  markets : List Market
  freeConfigs : Nat → FreeMarketConfig
  userShares : Nat → Nat → Nat → Nat
  userCostBasis : Nat → Nat → Nat → Nat
  hasClaimedWinnings : Nat → Nat → Bool
  hasClaimedFreeTokens : Nat → Nat → Bool
  userPortfolios : Nat → UserPortfolio
  platformFeeRate : Nat
  globalTradeCount : Nat
  totalPlatformFeesCollected : Nat
  totalLockedPlatformFees : Nat
  totalUnlockedPlatformFees : Nat
  totalWithdrawnPlatformFees : Nat

/-- Initial state right after deployment (no markets, zero counters,
`platformFeeRate = 25` as in the contract). -/
def initState : GlobalState :=
  { markets := []
    freeConfigs := fun _ => zeroFreeConfig
    userShares := fun _ _ _ => 0
    userCostBasis := fun _ _ _ => 0
    hasClaimedWinnings := fun _ _ => false
    hasClaimedFreeTokens := fun _ _ => false
    userPortfolios := fun _ => zeroPortfolio
    platformFeeRate := 25
    globalTradeCount := 0
    totalPlatformFeesCollected := 0
    totalLockedPlatformFees := 0
    totalUnlockedPlatformFees := 0
    totalWithdrawnPlatformFees := 0 }

/-- Pointwise update of a three-argument map (a Solidity nested mapping). -/
def update3 (f : Nat → Nat → Nat → Nat) (a b c v : Nat) :
    Nat → Nat → Nat → Nat :=
  fun x y z => if x = a ∧ y = b ∧ z = c then v else f x y z

/-- Pointwise update of a two-argument Bool map. -/
def update2b (f : Nat → Nat → Bool) (a b : Nat) (v : Bool) :
    Nat → Nat → Bool :=
  fun x y => if x = a ∧ y = b then v else f x y

-- ============ Pricing Engine (from `_calculatePrice` and friends) ============

/-- Embeds `_calculateLMSRB`: `B = (liquidity * 1e18) / (optionCount * 1e18)`
clamped to `[MIN_LMSR_B, MAX_LMSR_B]`. -/
def calculateLMSRB (liquidity optionCount : Nat) : Nat :=
  let b := liquidity * SCALE / (optionCount * SCALE)
  let b1 := if b < MIN_LMSR_B then MIN_LMSR_B else b
  if b1 > MAX_LMSR_B then MAX_LMSR_B else b1

/-- The loop total of `_calculatePrice`: sum over option indices
`i < m.optionCount` of the option's share count, with index `optionId`
replaced by the hypothetical value `shares`. -/
def weightedTotal (m : Market) (optionId shares : Nat) : Nat :=
  ((List.range m.optionCount).map
    (fun i => if i = optionId then shares
              else (m.options.getD i defaultOption).totalShares)).sum

/-- Embeds `_calculatePrice`: the option's (hypothetical) share count as a
fraction of the sum of all (hypothetical-adjusted) share counts, in 1e18
fixed point; `1e18 / optionCount` when the total is zero. -/
def calculatePrice (m : Market) (optionId shares : Nat) : Nat :=
  let total := weightedTotal m optionId shares
  if total = 0 then SCALE / m.optionCount
  else shares * SCALE / total

/-- Embeds `_calculateBuyCost`: quantity times the price evaluated at the
option's shares incremented by half the quantity. -/
def calculateBuyCost (m : Market) (optionId quantity : Nat) : Nat :=
  let currentShares := (m.options.getD optionId defaultOption).totalShares
  let avgPrice := calculatePrice m optionId (currentShares + quantity / 2)
  quantity * avgPrice / SCALE

/-- Embeds `_calculateSellProceeds`: requires the option to hold at least
`quantity` shares, then quantity times the price evaluated at the option's
shares decremented by half the quantity. -/
def calculateSellProceeds (m : Market) (optionId quantity : Nat) :
    Except Err Nat :=
  let currentShares := (m.options.getD optionId defaultOption).totalShares
  if currentShares < quantity then .error .insufficientResourceError
  else .ok (quantity * calculatePrice m optionId
              (currentShares - quantity / 2) / SCALE)

/-- Embeds `_updatePrice`: recompute and store the current price of ONE
option (only the traded option; the contract never refreshes the others). -/
def updatePrice (m : Market) (optionId : Nat) : Market :=
  let opt := m.options.getD optionId defaultOption
  let opt1 := { opt with
    currentPrice := calculatePrice m optionId opt.totalShares }
  { m with options := m.options.set optionId opt1 }

-- ============ Market Creation (from `_createMarket`) ============

/-- State update of a successful `_createMarket` call: pulls
`initialLiquidity` into custody, computes `B`, splits the liquidity evenly
across options each priced `1e18/optionCount`, and sets up the free-market
config when applicable. -/
def createApply (s : GlobalState) (caller : Nat)
    (question description : String)
    (optionNames optionDescriptions : List String) (duration : Nat)
    (marketType : MarketType) (initialLiquidity : Nat)
    (earlyResolutionAllowed : Bool)
    (maxFreeParticipants tokensPerParticipant : Nat) (now : Nat) :
    GlobalState :=
  let n := optionNames.length
  let mid := s.markets.length
  let sharesPerOption := initialLiquidity / n
  let opts := (optionNames.zip optionDescriptions).map
    (fun nd =>
      { name := nd.1, description := nd.2,
        totalShares := sharesPerOption, totalVolume := 0,
        currentPrice := SCALE / n, isActive := true })
  let m : Market :=
    { question := question, description := description,
      endTime := now + duration, createdAt := now,
      marketType := marketType, creator := caller,
      resolved := false, invalidated := false, disputed := false,
      validated := false, winningOptionId := 0, optionCount := n,
      totalVolume := 0, lmsrB := calculateLMSRB initialLiquidity n,
      adminInitialLiquidity := initialLiquidity,
      userLiquidity := 0, platformFeesCollected := 0,
      adminLiquidityClaimed := false,
      earlyResolutionAllowed := earlyResolutionAllowed,
      options := opts,
      ledgerBalance := (initialLiquidity : Int),
      winningsPaid := 0, grossSellProceeds := 0 }
  let cfg :=
    if marketType = MarketType.FREE ∧ 0 < maxFreeParticipants then
      fun j => if j = mid then
        { maxFreeParticipants := maxFreeParticipants,
          tokensPerParticipant := tokensPerParticipant,
          currentFreeParticipants := 0,
          totalPrizePool := maxFreeParticipants * tokensPerParticipant,
          remainingPrizePool := maxFreeParticipants * tokensPerParticipant,
          isActive := true }
        else s.freeConfigs j
    else s.freeConfigs
  { s with markets := s.markets ++ [m], freeConfigs := cfg }

/-- Embeds `_createMarket` (reached through `createMarketWithToken`):
validates the inputs before any state change. The token whitelist check
involves the omitted whitelist store and is not modelled. -/
def createMarket (s : GlobalState) (caller : Nat)
    (question description : String)
    (optionNames optionDescriptions : List String) (duration : Nat)
    (marketType : MarketType) (initialLiquidity : Nat)
    (earlyResolutionAllowed : Bool)
    (maxFreeParticipants tokensPerParticipant : Nat) (now : Nat) :
    Except Err GlobalState :=
  if question.length > 0 then
    if 2 ≤ optionNames.length then
      if optionNames.length = optionDescriptions.length then
        if MIN_MARKET_DURATION ≤ duration ∧ duration ≤ MAX_MARKET_DURATION then
          if 0 < initialLiquidity then
            .ok (createApply s caller question description optionNames
              optionDescriptions duration marketType initialLiquidity
              earlyResolutionAllowed maxFreeParticipants
              tokensPerParticipant now)
          else .error .validationError
        else .error .validationError
      else .error .validationError
    else .error .validationError
  else .error .validationError

-- ============ Trading (from `buyShares` / `sellShares`) ============

/-- State update of a successful `buyShares` call: pulls `cost + fee`,
updates shares/volumes/fees/position/portfolio, refreshes the traded
option's stored price (only that one), and accrues the fee to the global
collected and locked totals. -/
def buyApply (s : GlobalState) (caller mid oid quantity : Nat) :
    GlobalState :=
  let m := s.markets.getD mid defaultMarket
  let opt := m.options.getD oid defaultOption
  let totalCost := calculateBuyCost m oid quantity
  let fee := totalCost * s.platformFeeRate / 1000
  let totalPayment := totalCost + fee
  let opt1 := { opt with
    totalShares := opt.totalShares + quantity,
    totalVolume := opt.totalVolume + totalCost }
  let m1 := { m with
    options := m.options.set oid opt1,
    totalVolume := m.totalVolume + totalCost,
    platformFeesCollected := m.platformFeesCollected + fee,
    userLiquidity := m.userLiquidity + totalCost,
    ledgerBalance := m.ledgerBalance + (totalPayment : Int) }
  let m2 := updatePrice m1 oid
  let p := s.userPortfolios caller
  let p1 := { p with
    totalInvested := p.totalInvested + totalCost,
    tradeCount := p.tradeCount + 1 }
  { s with
    markets := s.markets.set mid m2,
    userShares := update3 s.userShares caller mid oid
      (s.userShares caller mid oid + quantity),
    userCostBasis := update3 s.userCostBasis caller mid oid
      (s.userCostBasis caller mid oid + totalCost),
    userPortfolios := fun u => if u = caller then p1 else s.userPortfolios u,
    globalTradeCount := s.globalTradeCount + 1,
    totalPlatformFeesCollected := s.totalPlatformFeesCollected + fee,
    totalLockedPlatformFees := s.totalLockedPlatformFees + fee }

/-- Embeds `buyShares`: guards (market exists, before end time, not
resolved, not invalidated, valid active option, positive quantity, slippage
bounds), then applies the buy update. -/
def buyShares (s : GlobalState)
    (caller mid oid quantity maxPricePerShare maxTotalCost now : Nat) :
    Except Err GlobalState :=
  if mid < s.markets.length then
    if now < (s.markets.getD mid defaultMarket).endTime then
      if (s.markets.getD mid defaultMarket).resolved = false then
        if (s.markets.getD mid defaultMarket).invalidated = false then
          if oid < (s.markets.getD mid defaultMarket).optionCount then
            if 0 < quantity then
              if ((s.markets.getD mid defaultMarket).options.getD oid
                    defaultOption).isActive then
                if calculateBuyCost (s.markets.getD mid defaultMarket) oid
                      quantity * SCALE / quantity ≤ maxPricePerShare then
                  if calculateBuyCost (s.markets.getD mid defaultMarket) oid
                        quantity ≤ maxTotalCost then
                    .ok (buyApply s caller mid oid quantity)
                  else .error .slippageError
                else .error .slippageError
              else .error .stateError
            else .error .validationError
          else .error .validationError
        else .error .stateError
      else .error .stateError
    else .error .stateError
  else .error .stateError

/-- Proceeds of a sell before the fee, as `_calculateSellProceeds` computes
them: quantity times the price evaluated at the option's shares decremented
by half the quantity. -/
def sellGross (s : GlobalState) (mid oid quantity : Nat) : Nat :=
  let m := s.markets.getD mid defaultMarket
  let opt := m.options.getD oid defaultOption
  quantity * calculatePrice m oid (opt.totalShares - quantity / 2) / SCALE

/-- State update of a successful `sellShares` call: updates shares/volumes/
fees, reduces the cost basis proportionally with the pre-sell share count
as denominator, records realized PnL, transfers the net proceeds, refreshes
the traded option's stored price and accrues the fee to the global
collected and locked totals. Note that `userLiquidity` is not reduced. -/
def sellApply (s : GlobalState) (caller mid oid quantity : Nat) :
    GlobalState :=
  let m := s.markets.getD mid defaultMarket
  let opt := m.options.getD oid defaultOption
  let totalProceeds := sellGross s mid oid quantity
  let fee := totalProceeds * s.platformFeeRate / 1000
  let netProceeds := totalProceeds - fee
  let opt1 := { opt with
    totalShares := opt.totalShares - quantity,
    totalVolume := opt.totalVolume + totalProceeds }
  let held := s.userShares caller mid oid
  let sharesAfter := held - quantity
  let costBasis := s.userCostBasis caller mid oid
  let costReduction := costBasis * quantity / (sharesAfter + quantity)
  let m1 := { m with
    options := m.options.set oid opt1,
    totalVolume := m.totalVolume + totalProceeds,
    platformFeesCollected := m.platformFeesCollected + fee,
    ledgerBalance := m.ledgerBalance - (netProceeds : Int),
    grossSellProceeds := m.grossSellProceeds + totalProceeds }
  let m2 := updatePrice m1 oid
  let p := s.userPortfolios caller
  let p1 := { p with
    realizedPnL := p.realizedPnL +
      ((netProceeds : Int) - (costReduction : Int)),
    tradeCount := p.tradeCount + 1 }
  { s with
    markets := s.markets.set mid m2,
    userShares := update3 s.userShares caller mid oid sharesAfter,
    userCostBasis := update3 s.userCostBasis caller mid oid
      (costBasis - costReduction),
    userPortfolios := fun u => if u = caller then p1 else s.userPortfolios u,
    globalTradeCount := s.globalTradeCount + 1,
    totalPlatformFeesCollected := s.totalPlatformFeesCollected + fee,
    totalLockedPlatformFees := s.totalLockedPlatformFees + fee }

/-- Embeds `sellShares`: guards (market exists, before end time, not
resolved, not invalidated, valid option, positive quantity, caller holds
enough shares, the option pool holds enough shares as `_calculateSellProceeds`
requires, slippage bounds), then applies the sell update. -/
def sellShares (s : GlobalState)
    (caller mid oid quantity minPricePerShare minTotalProceeds now : Nat) :
    Except Err GlobalState :=
  if mid < s.markets.length then
    if now < (s.markets.getD mid defaultMarket).endTime then
      if (s.markets.getD mid defaultMarket).resolved = false then
        if (s.markets.getD mid defaultMarket).invalidated = false then
          if oid < (s.markets.getD mid defaultMarket).optionCount then
            if 0 < quantity then
              if quantity ≤ s.userShares caller mid oid then
                if ((s.markets.getD mid defaultMarket).options.getD oid
                      defaultOption).totalShares < quantity then
                  .error .insufficientResourceError
                else
                  if minPricePerShare ≤
                      sellGross s mid oid quantity * SCALE / quantity then
                    if minTotalProceeds ≤ sellGross s mid oid quantity then
                      .ok (sellApply s caller mid oid quantity)
                    else .error .slippageError
                  else .error .slippageError
              else .error .insufficientResourceError
            else .error .validationError
          else .error .validationError
        else .error .stateError
      else .error .stateError
    else .error .stateError
  else .error .stateError

-- ============ Lifecycle (from `resolveMarket` etc.) ============

/-- State update of a successful `resolveMarket` call: sets `resolved`,
stores the winning option, and moves the market's collected fees from the
locked to the unlocked global total. -/
def resolveApply (s : GlobalState) (mid winningOptionId : Nat) :
    GlobalState :=
  let m := s.markets.getD mid defaultMarket
  let m1 := { m with
    resolved := true,
    winningOptionId := winningOptionId }
  { s with
    markets := s.markets.set mid m1,
    totalLockedPlatformFees :=
      s.totalLockedPlatformFees - m.platformFeesCollected,
    totalUnlockedPlatformFees :=
      s.totalUnlockedPlatformFees + m.platformFeesCollected }

/-- Embeds `resolveMarket`: market must exist, its end time must have
passed, it must be neither resolved nor invalidated nor disputed, and the
winning option index must be valid. The subtraction guard models the
Solidity 0.8 underflow revert. The `QUESTION_RESOLVE_ROLE` check only
restricts callers and is not modelled. -/
def resolveMarket (s : GlobalState) (mid winningOptionId now : Nat) :
    Except Err GlobalState :=
  if mid < s.markets.length then
    if (s.markets.getD mid defaultMarket).endTime ≤ now then
      if (s.markets.getD mid defaultMarket).resolved = false then
        if (s.markets.getD mid defaultMarket).invalidated = false then
          if winningOptionId < (s.markets.getD mid defaultMarket).optionCount then
            if (s.markets.getD mid defaultMarket).disputed = false then
              if (s.markets.getD mid defaultMarket).platformFeesCollected ≤
                  s.totalLockedPlatformFees then
                .ok (resolveApply s mid winningOptionId)
              else .error .stateError
            else .error .stateError
          else .error .validationError
        else .error .stateError
      else .error .stateError
    else .error .stateError
  else .error .stateError

/-- State update of a successful `invalidateMarket` call: sets
`invalidated` and removes the market's collected fees from both the locked
and the collected global totals. -/
def invalidateApply (s : GlobalState) (mid : Nat) : GlobalState :=
  let m := s.markets.getD mid defaultMarket
  let m1 := { m with invalidated := true }
  { s with
    markets := s.markets.set mid m1,
    totalLockedPlatformFees :=
      s.totalLockedPlatformFees - m.platformFeesCollected,
    totalPlatformFeesCollected :=
      s.totalPlatformFeesCollected - m.platformFeesCollected }

/-- Embeds `invalidateMarket`: market must exist and not be resolved (the
contract does NOT require it to be not already invalidated). The
subtraction guards model the Solidity 0.8 underflow reverts. The
`MARKET_VALIDATOR_ROLE` check only restricts callers and is not
modelled. -/
def invalidateMarket (s : GlobalState) (mid : Nat) :
    Except Err GlobalState :=
  if mid < s.markets.length then
    if (s.markets.getD mid defaultMarket).resolved = false then
      if (s.markets.getD mid defaultMarket).platformFeesCollected ≤
          s.totalLockedPlatformFees then
        if (s.markets.getD mid defaultMarket).platformFeesCollected ≤
            s.totalPlatformFeesCollected then
          .ok (invalidateApply s mid)
        else .error .stateError
      else .error .stateError
    else .error .stateError
  else .error .stateError

/-- State update of a successful `validateMarket` call. -/
def validateApply (s : GlobalState) (mid : Nat) : GlobalState :=
  let m := s.markets.getD mid defaultMarket
  { s with markets := s.markets.set mid { m with validated := true } }

/-- Embeds `validateMarket`: market must exist and not already be
validated; sets `validated`. -/
def validateMarket (s : GlobalState) (mid : Nat) : Except Err GlobalState :=
  if mid < s.markets.length then
    if (s.markets.getD mid defaultMarket).validated = false then
      .ok (validateApply s mid)
    else .error .stateError
  else .error .stateError

/-- State update of a successful `disputeMarket` call. -/
def disputeApply (s : GlobalState) (mid : Nat) : GlobalState :=
  let m := s.markets.getD mid defaultMarket
  { s with markets := s.markets.set mid { m with disputed := true } }

/-- Embeds `disputeMarket`: market must exist and not be resolved, and the
caller must hold shares in option 0 or option 1 of the market (the contract
checks exactly these two fixed indices, not every option of the market);
sets `disputed`. The reason string is only emitted in an event. -/
def disputeMarket (s : GlobalState) (caller mid : Nat) :
    Except Err GlobalState :=
  if mid < s.markets.length then
    if (s.markets.getD mid defaultMarket).resolved = false then
      if 0 < s.userShares caller mid 0 ∨ 0 < s.userShares caller mid 1 then
        .ok (disputeApply s mid)
      else .error .authorizationError
    else .error .stateError
  else .error .stateError

-- ============ Claiming (from `claimWinnings` etc.) ============

/-- State update of a successful `claimWinnings` call: pays
`shares * PAYOUT_PER_SHARE / 1e18`, setting the claim latch (in the
contract, before the transfer) and crediting the portfolio's total
winnings. -/
def claimWApply (s : GlobalState) (caller mid : Nat) : GlobalState :=
  let m := s.markets.getD mid defaultMarket
  let winningShares := s.userShares caller mid m.winningOptionId
  let payout := winningShares * PAYOUT_PER_SHARE / SCALE
  let m1 := { m with
    ledgerBalance := m.ledgerBalance - (payout : Int),
    winningsPaid := m.winningsPaid + payout }
  let p := s.userPortfolios caller
  let p1 := { p with totalWinnings := p.totalWinnings + payout }
  { s with
    markets := s.markets.set mid m1,
    hasClaimedWinnings := update2b s.hasClaimedWinnings mid caller true,
    userPortfolios := fun u => if u = caller then p1 else s.userPortfolios u }

/-- Embeds `claimWinnings`: market must exist, be resolved and not
invalidated, the caller must not have claimed yet and must hold shares of
the winning option. -/
def claimWinnings (s : GlobalState) (caller mid : Nat) :
    Except Err GlobalState :=
  if mid < s.markets.length then
    if (s.markets.getD mid defaultMarket).resolved then
      if (s.markets.getD mid defaultMarket).invalidated = false then
        if s.hasClaimedWinnings mid caller = false then
          if 0 < s.userShares caller mid
              (s.markets.getD mid defaultMarket).winningOptionId then
            .ok (claimWApply s caller mid)
          else .error .stateError
        else .error .stateError
      else .error .stateError
    else .error .stateError
  else .error .stateError

/-- State update of a successful `claimFreeTokens` call: credits
`tokensPerParticipant` shares of the chosen option to the caller and to the
option's share total at zero cost, consuming the prize pool. -/
def claimFreeApply (s : GlobalState) (caller mid oid : Nat) : GlobalState :=
  let m := s.markets.getD mid defaultMarket
  let cfg := s.freeConfigs mid
  let opt := m.options.getD oid defaultOption
  let opt1 := { opt with
    totalShares := opt.totalShares + cfg.tokensPerParticipant }
  let cfg1 := { cfg with
    currentFreeParticipants := cfg.currentFreeParticipants + 1,
    remainingPrizePool :=
      cfg.remainingPrizePool - cfg.tokensPerParticipant }
  { s with
    markets := s.markets.set mid { m with options := m.options.set oid opt1 },
    freeConfigs := fun j => if j = mid then cfg1 else s.freeConfigs j,
    hasClaimedFreeTokens := update2b s.hasClaimedFreeTokens mid caller true,
    userShares := update3 s.userShares caller mid oid
      (s.userShares caller mid oid + cfg.tokensPerParticipant) }

/-- Embeds `claimFreeTokens`: only on an active (before end time, neither
resolved nor invalidated) FREE market whose config is active, once per
caller, while the participant cap is not reached and the remaining pool
covers the grant. -/
def claimFreeTokens (s : GlobalState) (caller mid oid now : Nat) :
    Except Err GlobalState :=
  if mid < s.markets.length then
    if now < (s.markets.getD mid defaultMarket).endTime then
      if (s.markets.getD mid defaultMarket).resolved = false then
        if (s.markets.getD mid defaultMarket).invalidated = false then
          if (s.markets.getD mid defaultMarket).marketType =
              MarketType.FREE then
            if s.hasClaimedFreeTokens mid caller = false then
              if oid < (s.markets.getD mid defaultMarket).optionCount then
                if (s.freeConfigs mid).isActive then
                  if (s.freeConfigs mid).currentFreeParticipants <
                      (s.freeConfigs mid).maxFreeParticipants then
                    if (s.freeConfigs mid).tokensPerParticipant ≤
                        (s.freeConfigs mid).remainingPrizePool then
                      .ok (claimFreeApply s caller mid oid)
                    else .error .insufficientResourceError
                  else .error .stateError
                else .error .stateError
              else .error .validationError
            else .error .stateError
          else .error .stateError
        else .error .stateError
      else .error .stateError
    else .error .stateError
  else .error .stateError

/-- State update of a successful `withdrawAdminLiquidity` call: marks the
one-way latch and returns the full original `adminInitialLiquidity` to the
creator. -/
def withdrawAdminApply (s : GlobalState) (mid : Nat) : GlobalState :=
  let m := s.markets.getD mid defaultMarket
  let m1 := { m with
    adminLiquidityClaimed := true,
    ledgerBalance := m.ledgerBalance - (m.adminInitialLiquidity : Int) }
  { s with markets := s.markets.set mid m1 }

/-- Embeds `withdrawAdminLiquidity`: only the market's creator, only after
resolution or invalidation, only once. -/
def withdrawAdminLiquidity (s : GlobalState) (caller mid : Nat) :
    Except Err GlobalState :=
  if mid < s.markets.length then
    if caller = (s.markets.getD mid defaultMarket).creator then
      if (s.markets.getD mid defaultMarket).resolved ∨
          (s.markets.getD mid defaultMarket).invalidated then
        if (s.markets.getD mid defaultMarket).adminLiquidityClaimed = false then
          .ok (withdrawAdminApply s mid)
        else .error .stateError
      else .error .stateError
    else .error .authorizationError
  else .error .stateError

/-- Embeds `withdrawPlatformFees`: pays `unlocked - withdrawn` to the fee
collector (requiring the amount positive) and increments the withdrawn
total. The transfer draws on the pooled balance, not on any one market. -/
def withdrawPlatformFees (s : GlobalState) : Except Err GlobalState :=
  if 0 < s.totalUnlockedPlatformFees - s.totalWithdrawnPlatformFees then
    .ok { s with totalWithdrawnPlatformFees :=
      s.totalWithdrawnPlatformFees +
        (s.totalUnlockedPlatformFees - s.totalWithdrawnPlatformFees) }
  else .error .stateError

/-- Embeds `setPlatformFeeRate` (owner-only): at most 100, i.e. 10%. -/
def setPlatformFeeRate (s : GlobalState) (rate : Nat) :
    Except Err GlobalState :=
  if rate ≤ 100 then .ok { s with platformFeeRate := rate }
  else .error .validationError

-- ============ Operation language and reachability ============

/-- One public state-mutating call of the engine, with its caller and the
call-time block timestamp where the contract reads it. -/
inductive Op where
  | create (caller : Nat) (question description : String)
      (optionNames optionDescriptions : List String) (duration : Nat)
      (marketType : MarketType) (initialLiquidity : Nat)
      (earlyResolutionAllowed : Bool)
      (maxFreeParticipants tokensPerParticipant now : Nat)
  | buy (caller mid oid quantity maxPricePerShare maxTotalCost now : Nat)
  | sell (caller mid oid quantity minPricePerShare minTotalProceeds now : Nat)
  | resolve (mid winningOptionId now : Nat)
  | invalidate (mid : Nat)
  | validate (mid : Nat)
  | dispute (caller mid : Nat)
  | claimW (caller mid : Nat)
  | claimFree (caller mid oid now : Nat)
  | withdrawAdmin (caller mid : Nat)
  | withdrawFees
  | setFeeRate (rate : Nat)

/-- Dispatch an operation to its embedded implementation. -/
def applyOp (s : GlobalState) : Op → Except Err GlobalState
  | .create c q d ns ds dur mt liq early mfp tpp now =>
      createMarket s c q d ns ds dur mt liq early mfp tpp now
  | .buy c mid oid q mpps mtc now => buyShares s c mid oid q mpps mtc now
  | .sell c mid oid q mpps mtp now => sellShares s c mid oid q mpps mtp now
  | .resolve mid w now => resolveMarket s mid w now
  | .invalidate mid => invalidateMarket s mid
  | .validate mid => validateMarket s mid
  | .dispute c mid => disputeMarket s c mid
  | .claimW c mid => claimWinnings s c mid
  | .claimFree c mid oid now => claimFreeTokens s c mid oid now
  | .withdrawAdmin c mid => withdrawAdminLiquidity s c mid
  | .withdrawFees => withdrawPlatformFees s
  | .setFeeRate r => setPlatformFeeRate s r

/-- A failed call reverts: the state is unchanged and execution goes on. -/
def step (s : GlobalState) (op : Op) : GlobalState :=
  match applyOp s op with
  | .ok s1 => s1
  | .error _ => s

/-- Run a sequence of calls from a state. -/
def runOps (s : GlobalState) (ops : List Op) : GlobalState :=
  ops.foldl step s

/-- A state is reachable when some call sequence produces it from the
freshly deployed contract. -/
def Reachable (s : GlobalState) : Prop :=
  ∃ ops : List Op, runOps initState ops = s

-- ============ Success-case elimination, one lemma per operation ============

theorem createMarket_ok_elim {s s1 : GlobalState} {c : Nat} {q d : String}
    {ns ds : List String} {dur : Nat} {mt : MarketType} {liq : Nat}
    {early : Bool} {mfp tpp now : Nat}
    (hap : createMarket s c q d ns ds dur mt liq early mfp tpp now =
      .ok s1) :
    0 < q.length ∧ 2 ≤ ns.length ∧ ns.length = ds.length ∧
    (MIN_MARKET_DURATION ≤ dur ∧ dur ≤ MAX_MARKET_DURATION) ∧ 0 < liq ∧
    s1 = createApply s c q d ns ds dur mt liq early mfp tpp now := by
  simp only [createMarket] at hap
  split_ifs at hap with h1 h2 h3 h4 h5
  injection hap with hap
  exact ⟨h1, h2, h3, h4, h5, hap.symm⟩

theorem buyShares_ok_elim {s s1 : GlobalState}
    {c mid oid q mpps mtc now : Nat}
    (hap : buyShares s c mid oid q mpps mtc now = .ok s1) :
    mid < s.markets.length ∧
    now < (s.markets.getD mid defaultMarket).endTime ∧
    (s.markets.getD mid defaultMarket).resolved = false ∧
    (s.markets.getD mid defaultMarket).invalidated = false ∧
    oid < (s.markets.getD mid defaultMarket).optionCount ∧
    0 < q ∧
    ((s.markets.getD mid defaultMarket).options.getD oid
      defaultOption).isActive = true ∧
    s1 = buyApply s c mid oid q := by
  simp only [buyShares] at hap
  split_ifs at hap with h1 h2 h3 h4 h5 h6 h7 h8 h9
  injection hap with hap
  exact ⟨h1, h2, h3, h4, h5, h6, h7, hap.symm⟩

set_option maxHeartbeats 2000000 in
theorem sellShares_ok_elim {s s1 : GlobalState}
    {c mid oid q mpps mtp now : Nat}
    (hap : sellShares s c mid oid q mpps mtp now = .ok s1) :
    mid < s.markets.length ∧
    now < (s.markets.getD mid defaultMarket).endTime ∧
    (s.markets.getD mid defaultMarket).resolved = false ∧
    (s.markets.getD mid defaultMarket).invalidated = false ∧
    oid < (s.markets.getD mid defaultMarket).optionCount ∧
    0 < q ∧
    q ≤ s.userShares c mid oid ∧
    q ≤ ((s.markets.getD mid defaultMarket).options.getD oid
      defaultOption).totalShares ∧
    s1 = sellApply s c mid oid q := by
  simp only [sellShares] at hap
  split_ifs at hap with h1 h2 h3 h4 h5 h6 h7 h8 h9 h10
  injection hap with hap
  exact ⟨h1, h2, h3, h4, h5, h6, h7, by omega, hap.symm⟩

theorem resolveMarket_ok_elim {s s1 : GlobalState} {mid w now : Nat}
    (hap : resolveMarket s mid w now = .ok s1) :
    mid < s.markets.length ∧
    (s.markets.getD mid defaultMarket).endTime ≤ now ∧
    (s.markets.getD mid defaultMarket).resolved = false ∧
    (s.markets.getD mid defaultMarket).invalidated = false ∧
    w < (s.markets.getD mid defaultMarket).optionCount ∧
    (s.markets.getD mid defaultMarket).disputed = false ∧
    (s.markets.getD mid defaultMarket).platformFeesCollected ≤
      s.totalLockedPlatformFees ∧
    s1 = resolveApply s mid w := by
  simp only [resolveMarket] at hap
  split_ifs at hap with h1 h2 h3 h4 h5 h6 h7
  injection hap with hap
  exact ⟨h1, h2, h3, h4, h5, h6, h7, hap.symm⟩

theorem invalidateMarket_ok_elim {s s1 : GlobalState} {mid : Nat}
    (hap : invalidateMarket s mid = .ok s1) :
    mid < s.markets.length ∧
    (s.markets.getD mid defaultMarket).resolved = false ∧
    (s.markets.getD mid defaultMarket).platformFeesCollected ≤
      s.totalLockedPlatformFees ∧
    (s.markets.getD mid defaultMarket).platformFeesCollected ≤
      s.totalPlatformFeesCollected ∧
    s1 = invalidateApply s mid := by
  simp only [invalidateMarket] at hap
  split_ifs at hap with h1 h2 h3 h4
  injection hap with hap
  exact ⟨h1, h2, h3, h4, hap.symm⟩

theorem validateMarket_ok_elim {s s1 : GlobalState} {mid : Nat}
    (hap : validateMarket s mid = .ok s1) :
    mid < s.markets.length ∧
    (s.markets.getD mid defaultMarket).validated = false ∧
    s1 = validateApply s mid := by
  simp only [validateMarket] at hap
  split_ifs at hap with h1 h2
  injection hap with hap
  exact ⟨h1, h2, hap.symm⟩

theorem disputeMarket_ok_elim {s s1 : GlobalState} {c mid : Nat}
    (hap : disputeMarket s c mid = .ok s1) :
    mid < s.markets.length ∧
    (s.markets.getD mid defaultMarket).resolved = false ∧
    (0 < s.userShares c mid 0 ∨ 0 < s.userShares c mid 1) ∧
    s1 = disputeApply s mid := by
  simp only [disputeMarket] at hap
  split_ifs at hap with h1 h2 h3
  injection hap with hap
  exact ⟨h1, h2, h3, hap.symm⟩

theorem claimWinnings_ok_elim {s s1 : GlobalState} {c mid : Nat}
    (hap : claimWinnings s c mid = .ok s1) :
    mid < s.markets.length ∧
    (s.markets.getD mid defaultMarket).resolved = true ∧
    (s.markets.getD mid defaultMarket).invalidated = false ∧
    s.hasClaimedWinnings mid c = false ∧
    0 < s.userShares c mid
      (s.markets.getD mid defaultMarket).winningOptionId ∧
    s1 = claimWApply s c mid := by
  simp only [claimWinnings] at hap
  split_ifs at hap with h1 h2 h3 h4 h5
  injection hap with hap
  exact ⟨h1, h2, h3, h4, h5, hap.symm⟩

theorem claimFreeTokens_ok_elim {s s1 : GlobalState} {c mid oid now : Nat}
    (hap : claimFreeTokens s c mid oid now = .ok s1) :
    mid < s.markets.length ∧
    now < (s.markets.getD mid defaultMarket).endTime ∧
    (s.markets.getD mid defaultMarket).resolved = false ∧
    (s.markets.getD mid defaultMarket).invalidated = false ∧
    (s.markets.getD mid defaultMarket).marketType = MarketType.FREE ∧
    s.hasClaimedFreeTokens mid c = false ∧
    oid < (s.markets.getD mid defaultMarket).optionCount ∧
    (s.freeConfigs mid).isActive = true ∧
    (s.freeConfigs mid).currentFreeParticipants <
      (s.freeConfigs mid).maxFreeParticipants ∧
    (s.freeConfigs mid).tokensPerParticipant ≤
      (s.freeConfigs mid).remainingPrizePool ∧
    s1 = claimFreeApply s c mid oid := by
  simp only [claimFreeTokens] at hap
  split_ifs at hap with h1 h2 h3 h4 h5 h6 h7 h8 h9 h10
  injection hap with hap
  exact ⟨h1, h2, h3, h4, h5, h6, h7, h8, h9, h10, hap.symm⟩

theorem withdrawAdminLiquidity_ok_elim {s s1 : GlobalState} {c mid : Nat}
    (hap : withdrawAdminLiquidity s c mid = .ok s1) :
    mid < s.markets.length ∧
    c = (s.markets.getD mid defaultMarket).creator ∧
    ((s.markets.getD mid defaultMarket).resolved = true ∨
      (s.markets.getD mid defaultMarket).invalidated = true) ∧
    (s.markets.getD mid defaultMarket).adminLiquidityClaimed = false ∧
    s1 = withdrawAdminApply s mid := by
  simp only [withdrawAdminLiquidity] at hap
  split_ifs at hap with h1 h2 h3 h4
  injection hap with hap
  refine ⟨h1, h2, ?_, h4, hap.symm⟩
  rcases h3 with h | h
  · exact Or.inl h
  · exact Or.inr h

theorem withdrawPlatformFees_ok_elim {s s1 : GlobalState}
    (hap : withdrawPlatformFees s = .ok s1) :
    0 < s.totalUnlockedPlatformFees - s.totalWithdrawnPlatformFees ∧
    s1 = { s with totalWithdrawnPlatformFees :=
      s.totalWithdrawnPlatformFees +
        (s.totalUnlockedPlatformFees - s.totalWithdrawnPlatformFees) } := by
  simp only [withdrawPlatformFees] at hap
  split_ifs at hap with h1
  injection hap with hap
  exact ⟨h1, hap.symm⟩

theorem setPlatformFeeRate_ok_elim {s s1 : GlobalState} {r : Nat}
    (hap : setPlatformFeeRate s r = .ok s1) :
    r ≤ 100 ∧ s1 = { s with platformFeeRate := r } := by
  simp only [setPlatformFeeRate] at hap
  split_ifs at hap with h1
  injection hap with hap
  exact ⟨h1, hap.symm⟩

-- ============ Generic list helpers ============

/-- Reading back the just-set index. -/
theorem getD_set_self {α : Type} {xs : List α} {i : Nat} {m d : α}
    (hi : i < xs.length) : (xs.set i m).getD i d = m := by
  simp [List.getD, List.getElem?_set_self hi]

/-- Setting one index leaves the others unchanged. -/
theorem getD_set_ne {α : Type} {xs : List α} {i j : Nat} {m d : α}
    (hij : i ≠ j) : (xs.set i m).getD j d = xs.getD j d := by
  simp [List.getD, List.getElem?_set_ne hij]

/-- Appending on the right leaves existing indices unchanged. -/
theorem getD_append_left {α : Type} {xs ys : List α} {i : Nat} {d : α}
    (hi : i < xs.length) : (xs ++ ys).getD i d = xs.getD i d := by
  simp [List.getD, List.getElem?_append_left hi]

/-- Out-of-range `getD` reads give the default. -/
theorem getD_of_le_length {α : Type} {xs : List α} {i : Nat} {d : α}
    (h : xs.length ≤ i) : xs.getD i d = d := by
  rw [List.getD_eq_getElem?_getD, List.getElem?_eq_none h]
  rfl

/-- Reading the index right past a list after appending one element. -/
theorem getD_append_self {α : Type} {xs : List α} {m d : α} :
    (xs ++ [m]).getD xs.length d = m := by
  rw [List.getD_eq_getElem?_getD, List.getElem?_append_right (le_refl _)]
  simp

/-- An `all` fact specializes to any in-range `getD` read. -/
theorem all_getD {α : Type} {xs : List α} {p : α → Bool}
    (hall : xs.all p = true) {i : Nat} (hi : i < xs.length) (d : α) :
    p (xs.getD i d) = true := by
  rw [List.all_eq_true] at hall
  rw [List.getD_eq_getElem xs d hi]
  exact hall _ (List.getElem_mem hi)

/-- `all` survives a set whose new element satisfies the predicate. -/
theorem all_set {α : Type} {xs : List α} {p : α → Bool}
    (hall : xs.all p = true) {i : Nat} {m : α} (hm : p m = true) :
    (xs.set i m).all p = true := by
  rw [List.all_eq_true] at *
  intro x hx
  rcases List.mem_or_eq_of_mem_set hx with h | h
  · exact hall x h
  · subst h; exact hm

-- ============ Invariant checkers ============

/-- Conservation equation for one market: the tokens held for the market
equal admin initial liquidity plus user liquidity plus accrued platform
fees, minus gross sell proceeds, winnings paid and (once claimed) the
returned admin liquidity. -/
def marketConservationOk (m : Market) : Bool :=
  m.ledgerBalance ==
    (m.adminInitialLiquidity : Int) + (m.userLiquidity : Int)
      + (m.platformFeesCollected : Int) - (m.grossSellProceeds : Int)
      - (m.winningsPaid : Int)
      - (cond m.adminLiquidityClaimed (m.adminInitialLiquidity : Int) 0)

/-- Conservation holds for every market of the state. -/
def conservationOk (s : GlobalState) : Bool :=
  s.markets.all marketConservationOk

/-- Fee-ledger partition: collected equals locked plus unlocked. -/
def feePartitionOk (s : GlobalState) : Bool :=
  s.totalPlatformFeesCollected ==
    s.totalLockedPlatformFees + s.totalUnlockedPlatformFees

/-- Lifecycle exclusivity: no market is both resolved and invalidated. -/
def exclusivityOk (s : GlobalState) : Bool :=
  s.markets.all (fun m => !(m.resolved && m.invalidated))

-- ============ Conservation is preserved by every operation ============

theorem conservation_createApply (s : GlobalState) (c : Nat) (q d : String)
    (ns ds : List String) (dur : Nat) (mt : MarketType) (liq : Nat)
    (early : Bool) (mfp tpp now : Nat) (h : conservationOk s = true) :
    conservationOk
      (createApply s c q d ns ds dur mt liq early mfp tpp now) = true := by
  simp only [conservationOk, createApply]
  rw [List.all_append]
  simp only [conservationOk] at h
  simp [h, marketConservationOk]

theorem conservation_buyApply (s : GlobalState) (c mid oid q : Nat)
    (hmid : mid < s.markets.length) (h : conservationOk s = true) :
    conservationOk (buyApply s c mid oid q) = true := by
  have hm := all_getD h hmid defaultMarket
  simp only [marketConservationOk, beq_iff_eq] at hm
  simp only [conservationOk, buyApply, updatePrice]
  apply all_set h
  simp only [marketConservationOk, beq_iff_eq]
  cases hA : (s.markets.getD mid defaultMarket).adminLiquidityClaimed <;>
    simp only [hA, cond_true, cond_false] at hm ⊢ <;> omega

theorem conservation_sellApply (s : GlobalState) (c mid oid q : Nat)
    (hmid : mid < s.markets.length) (hrate : s.platformFeeRate ≤ 100)
    (h : conservationOk s = true) :
    conservationOk (sellApply s c mid oid q) = true := by
  have hm := all_getD h hmid defaultMarket
  simp only [marketConservationOk, beq_iff_eq] at hm
  have hfee : sellGross s mid oid q * s.platformFeeRate / 1000 ≤
      sellGross s mid oid q := by
    have h1 : sellGross s mid oid q * s.platformFeeRate ≤
        sellGross s mid oid q * 1000 := Nat.mul_le_mul_left _ (by omega)
    have h2 : sellGross s mid oid q * s.platformFeeRate / 1000 ≤
        sellGross s mid oid q * 1000 / 1000 := Nat.div_le_div_right h1
    omega
  simp only [conservationOk, sellApply, updatePrice]
  apply all_set h
  simp only [marketConservationOk, beq_iff_eq]
  cases hA : (s.markets.getD mid defaultMarket).adminLiquidityClaimed <;>
    simp only [hA, cond_true, cond_false] at hm ⊢ <;> omega

theorem conservation_resolveApply (s : GlobalState) (mid w : Nat)
    (hmid : mid < s.markets.length) (h : conservationOk s = true) :
    conservationOk (resolveApply s mid w) = true := by
  have hm := all_getD h hmid defaultMarket
  simp only [conservationOk, resolveApply]
  apply all_set h
  simpa [marketConservationOk] using hm

theorem conservation_invalidateApply (s : GlobalState) (mid : Nat)
    (hmid : mid < s.markets.length) (h : conservationOk s = true) :
    conservationOk (invalidateApply s mid) = true := by
  have hm := all_getD h hmid defaultMarket
  simp only [conservationOk, invalidateApply]
  apply all_set h
  simpa [marketConservationOk] using hm

theorem conservation_validateApply (s : GlobalState) (mid : Nat)
    (hmid : mid < s.markets.length) (h : conservationOk s = true) :
    conservationOk (validateApply s mid) = true := by
  have hm := all_getD h hmid defaultMarket
  simp only [conservationOk, validateApply]
  apply all_set h
  simpa [marketConservationOk] using hm

theorem conservation_disputeApply (s : GlobalState) (mid : Nat)
    (hmid : mid < s.markets.length) (h : conservationOk s = true) :
    conservationOk (disputeApply s mid) = true := by
  have hm := all_getD h hmid defaultMarket
  simp only [conservationOk, disputeApply]
  apply all_set h
  simpa [marketConservationOk] using hm

theorem conservation_claimWApply (s : GlobalState) (c mid : Nat)
    (hmid : mid < s.markets.length) (h : conservationOk s = true) :
    conservationOk (claimWApply s c mid) = true := by
  have hm := all_getD h hmid defaultMarket
  simp only [marketConservationOk, beq_iff_eq] at hm
  simp only [conservationOk, claimWApply]
  apply all_set h
  simp only [marketConservationOk, beq_iff_eq]
  cases hA : (s.markets.getD mid defaultMarket).adminLiquidityClaimed <;>
    simp only [hA, cond_true, cond_false] at hm ⊢ <;> omega

theorem conservation_claimFreeApply (s : GlobalState) (c mid oid : Nat)
    (hmid : mid < s.markets.length) (h : conservationOk s = true) :
    conservationOk (claimFreeApply s c mid oid) = true := by
  have hm := all_getD h hmid defaultMarket
  simp only [conservationOk, claimFreeApply]
  apply all_set h
  simpa [marketConservationOk] using hm

theorem conservation_withdrawAdminApply (s : GlobalState) (mid : Nat)
    (hmid : mid < s.markets.length)
    (hA : (s.markets.getD mid defaultMarket).adminLiquidityClaimed = false)
    (h : conservationOk s = true) :
    conservationOk (withdrawAdminApply s mid) = true := by
  have hm := all_getD h hmid defaultMarket
  simp only [marketConservationOk, beq_iff_eq] at hm
  simp only [conservationOk, withdrawAdminApply]
  apply all_set h
  simp only [marketConservationOk, beq_iff_eq]
  simp only [hA, cond_true, cond_false] at hm ⊢
  omega

/-- Every successful or reverting call preserves per-market
conservation. -/
theorem conservation_step (s : GlobalState) (op : Op)
    (hrate : s.platformFeeRate ≤ 100)
    (h : conservationOk s = true) : conservationOk (step s op) = true := by
  unfold step
  cases hap : applyOp s op with
  | error e => exact h
  | ok s1 =>
    cases op with
    | create c q d ns ds dur mt liq early mfp tpp now =>
      simp only [applyOp] at hap
      obtain ⟨-, -, -, -, -, rfl⟩ := createMarket_ok_elim hap
      exact conservation_createApply s c q d ns ds dur mt liq early mfp
        tpp now h
    | buy c mid oid q mpps mtc now =>
      simp only [applyOp] at hap
      obtain ⟨h1, -, -, -, -, -, -, rfl⟩ := buyShares_ok_elim hap
      exact conservation_buyApply s c mid oid q h1 h
    | sell c mid oid q mpps mtp now =>
      simp only [applyOp] at hap
      obtain ⟨h1, -, -, -, -, -, -, -, rfl⟩ := sellShares_ok_elim hap
      exact conservation_sellApply s c mid oid q h1 hrate h
    | resolve mid w now =>
      simp only [applyOp] at hap
      obtain ⟨h1, -, -, -, -, -, -, rfl⟩ := resolveMarket_ok_elim hap
      exact conservation_resolveApply s mid w h1 h
    | invalidate mid =>
      simp only [applyOp] at hap
      obtain ⟨h1, -, -, -, rfl⟩ := invalidateMarket_ok_elim hap
      exact conservation_invalidateApply s mid h1 h
    | validate mid =>
      simp only [applyOp] at hap
      obtain ⟨h1, -, rfl⟩ := validateMarket_ok_elim hap
      exact conservation_validateApply s mid h1 h
    | dispute c mid =>
      simp only [applyOp] at hap
      obtain ⟨h1, -, -, rfl⟩ := disputeMarket_ok_elim hap
      exact conservation_disputeApply s mid h1 h
    | claimW c mid =>
      simp only [applyOp] at hap
      obtain ⟨h1, -, -, -, -, rfl⟩ := claimWinnings_ok_elim hap
      exact conservation_claimWApply s c mid h1 h
    | claimFree c mid oid now =>
      simp only [applyOp] at hap
      obtain ⟨h1, -, -, -, -, -, -, -, -, -, rfl⟩ :=
        claimFreeTokens_ok_elim hap
      exact conservation_claimFreeApply s c mid oid h1 h
    | withdrawAdmin c mid =>
      simp only [applyOp] at hap
      obtain ⟨h1, -, -, h4, rfl⟩ := withdrawAdminLiquidity_ok_elim hap
      exact conservation_withdrawAdminApply s mid h1 h4 h
    | withdrawFees =>
      simp only [applyOp] at hap
      obtain ⟨-, rfl⟩ := withdrawPlatformFees_ok_elim hap
      simpa [conservationOk] using h
    | setFeeRate r =>
      simp only [applyOp] at hap
      obtain ⟨-, rfl⟩ := setPlatformFeeRate_ok_elim hap
      simpa [conservationOk] using h

-- ============ Simple global invariants ============

/-- The platform fee rate stays at most 100 (10%) across every call:
it starts at 25 and `setPlatformFeeRate` caps it. -/
theorem feeRate_step (s : GlobalState) (op : Op)
    (h : s.platformFeeRate ≤ 100) :
    (step s op).platformFeeRate ≤ 100 := by
  unfold step
  cases hap : applyOp s op with
  | error e => exact h
  | ok s1 =>
    cases op with
    | create c q d ns ds dur mt liq early mfp tpp now =>
      simp only [applyOp] at hap
      obtain ⟨-, -, -, -, -, rfl⟩ := createMarket_ok_elim hap
      exact h
    | buy c mid oid q mpps mtc now =>
      simp only [applyOp] at hap
      obtain ⟨-, -, -, -, -, -, -, rfl⟩ := buyShares_ok_elim hap
      exact h
    | sell c mid oid q mpps mtp now =>
      simp only [applyOp] at hap
      obtain ⟨-, -, -, -, -, -, -, -, rfl⟩ := sellShares_ok_elim hap
      exact h
    | resolve mid w now =>
      simp only [applyOp] at hap
      obtain ⟨-, -, -, -, -, -, -, rfl⟩ := resolveMarket_ok_elim hap
      exact h
    | invalidate mid =>
      simp only [applyOp] at hap
      obtain ⟨-, -, -, -, rfl⟩ := invalidateMarket_ok_elim hap
      exact h
    | validate mid =>
      simp only [applyOp] at hap
      obtain ⟨-, -, rfl⟩ := validateMarket_ok_elim hap
      exact h
    | dispute c mid =>
      simp only [applyOp] at hap
      obtain ⟨-, -, -, rfl⟩ := disputeMarket_ok_elim hap
      exact h
    | claimW c mid =>
      simp only [applyOp] at hap
      obtain ⟨-, -, -, -, -, rfl⟩ := claimWinnings_ok_elim hap
      exact h
    | claimFree c mid oid now =>
      simp only [applyOp] at hap
      obtain ⟨-, -, -, -, -, -, -, -, -, -, rfl⟩ :=
        claimFreeTokens_ok_elim hap
      exact h
    | withdrawAdmin c mid =>
      simp only [applyOp] at hap
      obtain ⟨-, -, -, -, rfl⟩ := withdrawAdminLiquidity_ok_elim hap
      exact h
    | withdrawFees =>
      simp only [applyOp] at hap
      obtain ⟨-, rfl⟩ := withdrawPlatformFees_ok_elim hap
      exact h
    | setFeeRate r =>
      simp only [applyOp] at hap
      obtain ⟨h1, rfl⟩ := setPlatformFeeRate_ok_elim hap
      exact h1

/-- Every successful or reverting call preserves the fee-ledger partition
`collected == locked + unlocked`. -/
theorem feePartition_step (s : GlobalState) (op : Op)
    (h : feePartitionOk s = true) : feePartitionOk (step s op) = true := by
  unfold step
  cases hap : applyOp s op with
  | error e => exact h
  | ok s1 =>
    simp only [feePartitionOk, beq_iff_eq] at h ⊢
    cases op with
    | create c q d ns ds dur mt liq early mfp tpp now =>
      simp only [applyOp] at hap
      obtain ⟨-, -, -, -, -, rfl⟩ := createMarket_ok_elim hap
      exact h
    | buy c mid oid q mpps mtc now =>
      simp only [applyOp] at hap
      obtain ⟨-, -, -, -, -, -, -, rfl⟩ := buyShares_ok_elim hap
      dsimp only [buyApply]
      omega
    | sell c mid oid q mpps mtp now =>
      simp only [applyOp] at hap
      obtain ⟨-, -, -, -, -, -, -, -, rfl⟩ := sellShares_ok_elim hap
      dsimp only [sellApply]
      omega
    | resolve mid w now =>
      simp only [applyOp] at hap
      obtain ⟨-, -, -, -, -, -, h7, rfl⟩ := resolveMarket_ok_elim hap
      dsimp only [resolveApply]
      omega
    | invalidate mid =>
      simp only [applyOp] at hap
      obtain ⟨-, -, h3, h4, rfl⟩ := invalidateMarket_ok_elim hap
      dsimp only [invalidateApply]
      omega
    | validate mid =>
      simp only [applyOp] at hap
      obtain ⟨-, -, rfl⟩ := validateMarket_ok_elim hap
      exact h
    | dispute c mid =>
      simp only [applyOp] at hap
      obtain ⟨-, -, -, rfl⟩ := disputeMarket_ok_elim hap
      exact h
    | claimW c mid =>
      simp only [applyOp] at hap
      obtain ⟨-, -, -, -, -, rfl⟩ := claimWinnings_ok_elim hap
      exact h
    | claimFree c mid oid now =>
      simp only [applyOp] at hap
      obtain ⟨-, -, -, -, -, -, -, -, -, -, rfl⟩ :=
        claimFreeTokens_ok_elim hap
      exact h
    | withdrawAdmin c mid =>
      simp only [applyOp] at hap
      obtain ⟨-, -, -, -, rfl⟩ := withdrawAdminLiquidity_ok_elim hap
      exact h
    | withdrawFees =>
      simp only [applyOp] at hap
      obtain ⟨-, rfl⟩ := withdrawPlatformFees_ok_elim hap
      exact h
    | setFeeRate r =>
      simp only [applyOp] at hap
      obtain ⟨-, rfl⟩ := setPlatformFeeRate_ok_elim hap
      exact h

-- ============ Lifecycle flags: exclusivity and permanence ============

/-- Every successful or reverting call preserves lifecycle exclusivity. -/
theorem exclusivity_step (s : GlobalState) (op : Op)
    (h : exclusivityOk s = true) : exclusivityOk (step s op) = true := by
  unfold step
  cases hap : applyOp s op with
  | error e => exact h
  | ok s1 =>
    cases op with
    | create c q d ns ds dur mt liq early mfp tpp now =>
      simp only [applyOp] at hap
      obtain ⟨-, -, -, -, -, rfl⟩ := createMarket_ok_elim hap
      simp only [exclusivityOk, createApply] at h ⊢
      rw [List.all_append, h]
      simp
    | buy c mid oid q mpps mtc now =>
      simp only [applyOp] at hap
      obtain ⟨h1, -, -, -, -, -, -, rfl⟩ := buyShares_ok_elim hap
      have hm := all_getD h h1 defaultMarket
      simp only [exclusivityOk, buyApply, updatePrice] at h ⊢
      exact all_set h (by simpa using hm)
    | sell c mid oid q mpps mtp now =>
      simp only [applyOp] at hap
      obtain ⟨h1, -, -, -, -, -, -, -, rfl⟩ := sellShares_ok_elim hap
      have hm := all_getD h h1 defaultMarket
      simp only [exclusivityOk, sellApply, updatePrice] at h ⊢
      exact all_set h (by simpa using hm)
    | resolve mid w now =>
      simp only [applyOp] at hap
      obtain ⟨h1, -, -, h4, -, -, -, rfl⟩ := resolveMarket_ok_elim hap
      simp only [exclusivityOk, resolveApply] at h ⊢
      refine all_set h ?_
      show (!(true && (s.markets.getD mid defaultMarket).invalidated)) = true
      rw [h4]
      rfl
    | invalidate mid =>
      simp only [applyOp] at hap
      obtain ⟨h1, h2, -, -, rfl⟩ := invalidateMarket_ok_elim hap
      simp only [exclusivityOk, invalidateApply] at h ⊢
      refine all_set h ?_
      show (!((s.markets.getD mid defaultMarket).resolved && true)) = true
      rw [h2]
      rfl
    | validate mid =>
      simp only [applyOp] at hap
      obtain ⟨h1, -, rfl⟩ := validateMarket_ok_elim hap
      have hm := all_getD h h1 defaultMarket
      simp only [exclusivityOk, validateApply] at h ⊢
      exact all_set h (by simpa using hm)
    | dispute c mid =>
      simp only [applyOp] at hap
      obtain ⟨h1, -, -, rfl⟩ := disputeMarket_ok_elim hap
      have hm := all_getD h h1 defaultMarket
      simp only [exclusivityOk, disputeApply] at h ⊢
      exact all_set h (by simpa using hm)
    | claimW c mid =>
      simp only [applyOp] at hap
      obtain ⟨h1, -, -, -, -, rfl⟩ := claimWinnings_ok_elim hap
      have hm := all_getD h h1 defaultMarket
      simp only [exclusivityOk, claimWApply] at h ⊢
      exact all_set h (by simpa using hm)
    | claimFree c mid oid now =>
      simp only [applyOp] at hap
      obtain ⟨h1, -, -, -, -, -, -, -, -, -, rfl⟩ :=
        claimFreeTokens_ok_elim hap
      have hm := all_getD h h1 defaultMarket
      simp only [exclusivityOk, claimFreeApply] at h ⊢
      exact all_set h (by simpa using hm)
    | withdrawAdmin c mid =>
      simp only [applyOp] at hap
      obtain ⟨h1, -, -, -, rfl⟩ := withdrawAdminLiquidity_ok_elim hap
      have hm := all_getD h h1 defaultMarket
      simp only [exclusivityOk, withdrawAdminApply] at h ⊢
      exact all_set h (by simpa using hm)
    | withdrawFees =>
      simp only [applyOp] at hap
      obtain ⟨-, rfl⟩ := withdrawPlatformFees_ok_elim hap
      simpa [exclusivityOk] using h
    | setFeeRate r =>
      simp only [applyOp] at hap
      obtain ⟨-, rfl⟩ := setPlatformFeeRate_ok_elim hap
      simpa [exclusivityOk] using h

/-- One-step relation between the old and new lifecycle flags of a fixed
market: `resolved` and `invalidated` are one-way latches and the operations
that set one of them require the other to be unset. -/
def flagsPreserved (m m1 : Market) : Prop :=
  (m.resolved = true → m1.resolved = true ∧ m1.invalidated = m.invalidated)
  ∧ (m.invalidated = true →
      m1.invalidated = true ∧ m1.resolved = m.resolved)

theorem flagsPreserved_refl (m : Market) : flagsPreserved m m :=
  ⟨fun h => ⟨h, rfl⟩, fun h => ⟨h, rfl⟩⟩

theorem flagsPreserved_trans {a b c : Market} (h1 : flagsPreserved a b)
    (h2 : flagsPreserved b c) : flagsPreserved a c := by
  obtain ⟨r1, i1⟩ := h1
  obtain ⟨r2, i2⟩ := h2
  constructor
  · intro ha
    obtain ⟨hb, hbi⟩ := r1 ha
    obtain ⟨hc, hci⟩ := r2 hb
    exact ⟨hc, hci.trans hbi⟩
  · intro ha
    obtain ⟨hb, hbr⟩ := i1 ha
    obtain ⟨hc, hcr⟩ := i2 hb
    exact ⟨hc, hcr.trans hbr⟩

theorem flagsPreserved_of_eq {m m1 : Market}
    (h1 : m1.resolved = m.resolved) (h2 : m1.invalidated = m.invalidated) :
    flagsPreserved m m1 :=
  ⟨fun h => ⟨h1.trans h, h2⟩, fun h => ⟨h2.trans h, h1⟩⟩

theorem flagsPreserved_of_not {m m1 : Market}
    (h1 : m.resolved = false) (h2 : m.invalidated = false) :
    flagsPreserved m m1 := by
  constructor
  · intro h; rw [h1] at h; exact absurd h (by simp)
  · intro h; rw [h2] at h; exact absurd h (by simp)

/-- Every call preserves the one-way lifecycle flags of every market. -/
theorem flags_step (s : GlobalState) (op : Op) (mid : Nat) :
    flagsPreserved (s.markets.getD mid defaultMarket)
      ((step s op).markets.getD mid defaultMarket) := by
  unfold step
  cases hap : applyOp s op with
  | error e => exact flagsPreserved_refl _
  | ok s1 =>
    cases op with
    | create c q d ns ds dur mt liq early mfp tpp now =>
      simp only [applyOp] at hap
      obtain ⟨-, -, -, -, -, rfl⟩ := createMarket_ok_elim hap
      dsimp only [createApply]
      by_cases hmid : mid < s.markets.length
      · rw [getD_append_left hmid]
        exact flagsPreserved_refl _
      · have hd : s.markets.getD mid defaultMarket = defaultMarket := by
          rw [List.getD_eq_getElem?_getD, List.getElem?_eq_none (by omega)]
          rfl
        rw [hd]
        exact flagsPreserved_of_not rfl rfl
    | buy c mid1 oid q mpps mtc now =>
      simp only [applyOp] at hap
      obtain ⟨h1, -, -, -, -, -, -, rfl⟩ := buyShares_ok_elim hap
      dsimp only [buyApply, updatePrice]
      by_cases hk : mid1 = mid
      · subst hk
        rw [getD_set_self h1]
        exact flagsPreserved_of_eq rfl rfl
      · rw [getD_set_ne hk]
        exact flagsPreserved_refl _
    | sell c mid1 oid q mpps mtp now =>
      simp only [applyOp] at hap
      obtain ⟨h1, -, -, -, -, -, -, -, rfl⟩ := sellShares_ok_elim hap
      dsimp only [sellApply, updatePrice]
      by_cases hk : mid1 = mid
      · subst hk
        rw [getD_set_self h1]
        exact flagsPreserved_of_eq rfl rfl
      · rw [getD_set_ne hk]
        exact flagsPreserved_refl _
    | resolve mid1 w now =>
      simp only [applyOp] at hap
      obtain ⟨h1, -, h3, h4, -, -, -, rfl⟩ := resolveMarket_ok_elim hap
      dsimp only [resolveApply]
      by_cases hk : mid1 = mid
      · subst hk
        rw [getD_set_self h1]
        exact flagsPreserved_of_not h3 h4
      · rw [getD_set_ne hk]
        exact flagsPreserved_refl _
    | invalidate mid1 =>
      simp only [applyOp] at hap
      obtain ⟨h1, h2, -, -, rfl⟩ := invalidateMarket_ok_elim hap
      dsimp only [invalidateApply]
      by_cases hk : mid1 = mid
      · subst hk
        rw [getD_set_self h1]
        constructor
        · intro hres; rw [h2] at hres; exact absurd hres (by simp)
        · intro hinv; exact ⟨rfl, rfl⟩
      · rw [getD_set_ne hk]
        exact flagsPreserved_refl _
    | validate mid1 =>
      simp only [applyOp] at hap
      obtain ⟨h1, -, rfl⟩ := validateMarket_ok_elim hap
      dsimp only [validateApply]
      by_cases hk : mid1 = mid
      · subst hk
        rw [getD_set_self h1]
        exact flagsPreserved_of_eq rfl rfl
      · rw [getD_set_ne hk]
        exact flagsPreserved_refl _
    | dispute c mid1 =>
      simp only [applyOp] at hap
      obtain ⟨h1, -, -, rfl⟩ := disputeMarket_ok_elim hap
      dsimp only [disputeApply]
      by_cases hk : mid1 = mid
      · subst hk
        rw [getD_set_self h1]
        exact flagsPreserved_of_eq rfl rfl
      · rw [getD_set_ne hk]
        exact flagsPreserved_refl _
    | claimW c mid1 =>
      simp only [applyOp] at hap
      obtain ⟨h1, -, -, -, -, rfl⟩ := claimWinnings_ok_elim hap
      dsimp only [claimWApply]
      by_cases hk : mid1 = mid
      · subst hk
        rw [getD_set_self h1]
        exact flagsPreserved_of_eq rfl rfl
      · rw [getD_set_ne hk]
        exact flagsPreserved_refl _
    | claimFree c mid1 oid now =>
      simp only [applyOp] at hap
      obtain ⟨h1, -, -, -, -, -, -, -, -, -, rfl⟩ :=
        claimFreeTokens_ok_elim hap
      dsimp only [claimFreeApply]
      by_cases hk : mid1 = mid
      · subst hk
        rw [getD_set_self h1]
        exact flagsPreserved_of_eq rfl rfl
      · rw [getD_set_ne hk]
        exact flagsPreserved_refl _
    | withdrawAdmin c mid1 =>
      simp only [applyOp] at hap
      obtain ⟨h1, -, -, -, rfl⟩ := withdrawAdminLiquidity_ok_elim hap
      dsimp only [withdrawAdminApply]
      by_cases hk : mid1 = mid
      · subst hk
        rw [getD_set_self h1]
        exact flagsPreserved_of_eq rfl rfl
      · rw [getD_set_ne hk]
        exact flagsPreserved_refl _
    | withdrawFees =>
      simp only [applyOp] at hap
      obtain ⟨-, rfl⟩ := withdrawPlatformFees_ok_elim hap
      exact flagsPreserved_refl _
    | setFeeRate r =>
      simp only [applyOp] at hap
      obtain ⟨-, rfl⟩ := setPlatformFeeRate_ok_elim hap
      exact flagsPreserved_refl _

/-- The winnings-claim latch is one-way: once set, no call unsets it. -/
theorem latch_step (s : GlobalState) (op : Op) (mid c : Nat)
    (h : s.hasClaimedWinnings mid c = true) :
    (step s op).hasClaimedWinnings mid c = true := by
  unfold step
  cases hap : applyOp s op with
  | error e => exact h
  | ok s1 =>
    cases op with
    | create c1 q d ns ds dur mt liq early mfp tpp now =>
      simp only [applyOp] at hap
      obtain ⟨-, -, -, -, -, rfl⟩ := createMarket_ok_elim hap
      exact h
    | buy c1 mid1 oid q mpps mtc now =>
      simp only [applyOp] at hap
      obtain ⟨-, -, -, -, -, -, -, rfl⟩ := buyShares_ok_elim hap
      exact h
    | sell c1 mid1 oid q mpps mtp now =>
      simp only [applyOp] at hap
      obtain ⟨-, -, -, -, -, -, -, -, rfl⟩ := sellShares_ok_elim hap
      exact h
    | resolve mid1 w now =>
      simp only [applyOp] at hap
      obtain ⟨-, -, -, -, -, -, -, rfl⟩ := resolveMarket_ok_elim hap
      exact h
    | invalidate mid1 =>
      simp only [applyOp] at hap
      obtain ⟨-, -, -, -, rfl⟩ := invalidateMarket_ok_elim hap
      exact h
    | validate mid1 =>
      simp only [applyOp] at hap
      obtain ⟨-, -, rfl⟩ := validateMarket_ok_elim hap
      exact h
    | dispute c1 mid1 =>
      simp only [applyOp] at hap
      obtain ⟨-, -, -, rfl⟩ := disputeMarket_ok_elim hap
      exact h
    | claimW c1 mid1 =>
      simp only [applyOp] at hap
      obtain ⟨-, -, -, -, -, rfl⟩ := claimWinnings_ok_elim hap
      dsimp only [claimWApply, update2b]
      split
      · rfl
      · exact h
    | claimFree c1 mid1 oid now =>
      simp only [applyOp] at hap
      obtain ⟨-, -, -, -, -, -, -, -, -, -, rfl⟩ :=
        claimFreeTokens_ok_elim hap
      exact h
    | withdrawAdmin c1 mid1 =>
      simp only [applyOp] at hap
      obtain ⟨-, -, -, -, rfl⟩ := withdrawAdminLiquidity_ok_elim hap
      exact h
    | withdrawFees =>
      simp only [applyOp] at hap
      obtain ⟨-, rfl⟩ := withdrawPlatformFees_ok_elim hap
      exact h
    | setFeeRate r =>
      simp only [applyOp] at hap
      obtain ⟨-, rfl⟩ := setPlatformFeeRate_ok_elim hap
      exact h

-- ============ Invariants along whole call sequences ============

theorem feeRate_runOps (s : GlobalState) (ops : List Op)
    (h : s.platformFeeRate ≤ 100) :
    (runOps s ops).platformFeeRate ≤ 100 := by
  induction ops generalizing s with
  | nil => exact h
  | cons op ops ih => exact ih (step s op) (feeRate_step s op h)

theorem conservation_runOps (s : GlobalState) (ops : List Op)
    (hrate : s.platformFeeRate ≤ 100) (h : conservationOk s = true) :
    conservationOk (runOps s ops) = true := by
  induction ops generalizing s with
  | nil => exact h
  | cons op ops ih =>
      exact ih (step s op) (feeRate_step s op hrate)
        (conservation_step s op hrate h)

theorem feePartition_runOps (s : GlobalState) (ops : List Op)
    (h : feePartitionOk s = true) :
    feePartitionOk (runOps s ops) = true := by
  induction ops generalizing s with
  | nil => exact h
  | cons op ops ih => exact ih (step s op) (feePartition_step s op h)

theorem exclusivity_runOps (s : GlobalState) (ops : List Op)
    (h : exclusivityOk s = true) :
    exclusivityOk (runOps s ops) = true := by
  induction ops generalizing s with
  | nil => exact h
  | cons op ops ih => exact ih (step s op) (exclusivity_step s op h)

theorem flags_runOps (s : GlobalState) (ops : List Op) (mid : Nat) :
    flagsPreserved (s.markets.getD mid defaultMarket)
      ((runOps s ops).markets.getD mid defaultMarket) := by
  induction ops generalizing s with
  | nil => exact flagsPreserved_refl _
  | cons op ops ih =>
      exact flagsPreserved_trans (flags_step s op mid) (ih (step s op))

theorem latch_runOps (s : GlobalState) (ops : List Op) (mid c : Nat)
    (h : s.hasClaimedWinnings mid c = true) :
    (runOps s ops).hasClaimedWinnings mid c = true := by
  induction ops generalizing s with
  | nil => exact h
  | cons op ops ih => exact ih (step s op) (latch_step s op mid c h)

theorem feeRate_reachable (s : GlobalState) (h : Reachable s) :
    s.platformFeeRate ≤ 100 := by
  obtain ⟨ops, rfl⟩ := h
  exact feeRate_runOps initState ops (by decide)

theorem conservation_reachable (s : GlobalState) (h : Reachable s) :
    conservationOk s = true := by
  obtain ⟨ops, rfl⟩ := h
  exact conservation_runOps initState ops (by decide) rfl

theorem feePartition_reachable (s : GlobalState) (h : Reachable s) :
    feePartitionOk s = true := by
  obtain ⟨ops, rfl⟩ := h
  exact feePartition_runOps initState ops rfl

theorem exclusivity_reachable (s : GlobalState) (h : Reachable s) :
    exclusivityOk s = true := by
  obtain ⟨ops, rfl⟩ := h
  exact exclusivity_runOps initState ops rfl

-- ============ Pricing bounds ============

/-- Dividing summand-wise can only lose against dividing the sum. -/
theorem list_sum_div_le (xs : List Nat) (T : Nat) :
    (xs.map (fun x => x / T)).sum ≤ xs.sum / T := by
  induction xs with
  | nil => simp
  | cons x xs ih =>
      simp only [List.map_cons, List.sum_cons]
      have h := Nat.add_div_le_add_div x xs.sum T
      omega

/-- Summand-wise division loses less than one unit per summand. -/
theorem list_div_sum_le (xs : List Nat) (T : Nat) (hT : 0 < T) :
    xs.sum / T ≤ (xs.map (fun x => x / T)).sum + xs.length := by
  induction xs with
  | nil => simp
  | cons x xs ih =>
      simp only [List.map_cons, List.sum_cons, List.length_cons]
      have h1 : (x + xs.sum) / T ≤ x / T + xs.sum / T + 1 := by
        rw [Nat.add_div hT]
        split <;> omega
      omega

/-- The sum of all option share counts of a market, as `_calculatePrice`
reads them. -/
def totalSharesAll (m : Market) : Nat :=
  ((List.range m.optionCount).map
    (fun i => (m.options.getD i defaultOption).totalShares)).sum

/-- Evaluating the hypothetical-adjusted total at an option's actual share
count gives the plain total. -/
theorem weightedTotal_self (m : Market) (i : Nat) :
    weightedTotal m i ((m.options.getD i defaultOption).totalShares) =
      totalSharesAll m := by
  unfold weightedTotal totalSharesAll
  congr 1
  apply List.map_congr_left
  intro j hj
  by_cases hji : j = i
  · subst hji; simp
  · simp [hji]

/-- The price of an option recomputed from the current share counts, as
`_updatePrice` would store it for the traded option. -/
def recomputedPrice (m : Market) (oid : Nat) : Nat :=
  calculatePrice m oid ((m.options.getD oid defaultOption).totalShares)

/-- Sum of the recomputed prices of all options of a market. -/
def priceSum (m : Market) : Nat :=
  ((List.range m.optionCount).map (fun i => recomputedPrice m i)).sum

/-- The hypothetical-adjusted total is at least the adjusted option's
hypothetical share count whenever the option index is in range. -/
theorem le_weightedTotal (m : Market) (oid shares : Nat)
    (hoid : oid < m.optionCount) : shares ≤ weightedTotal m oid shares := by
  unfold weightedTotal
  have hmem : shares ∈ (List.range m.optionCount).map
      (fun i => if i = oid then shares
                else (m.options.getD i defaultOption).totalShares) := by
    apply List.mem_map.mpr
    exact ⟨oid, List.mem_range.mpr hoid, by simp⟩
  exact List.single_le_sum (fun x _ => Nat.zero_le x) _ hmem

/-- The computed price never exceeds 1e18 for an in-range option index. -/
theorem calculatePrice_le (m : Market) (oid shares : Nat)
    (hoid : oid < m.optionCount) : calculatePrice m oid shares ≤ SCALE := by
  have hw := le_weightedTotal m oid shares hoid
  simp only [calculatePrice]
  split_ifs with h0
  · exact Nat.div_le_self SCALE m.optionCount
  · have hpos : 0 < weightedTotal m oid shares := Nat.pos_of_ne_zero h0
    calc shares * SCALE / weightedTotal m oid shares
        ≤ weightedTotal m oid shares * SCALE / weightedTotal m oid shares :=
          Nat.div_le_div_right (Nat.mul_le_mul_right SCALE hw)
      _ = SCALE := Nat.mul_div_cancel_left SCALE hpos

/-- The buy cost never exceeds the quantity (price at most one token per
share). -/
theorem calculateBuyCost_le (m : Market) (oid q : Nat)
    (hoid : oid < m.optionCount) : calculateBuyCost m oid q ≤ q := by
  have h := calculatePrice_le m oid
    ((m.options.getD oid defaultOption).totalShares + q / 2) hoid
  simp only [calculateBuyCost]
  calc q * calculatePrice m oid
        ((m.options.getD oid defaultOption).totalShares + q / 2) / SCALE
      ≤ q * SCALE / SCALE :=
        Nat.div_le_div_right (Nat.mul_le_mul_left q h)
    _ = q := Nat.mul_div_cancel q (by norm_num [SCALE])

/-- The gross sell proceeds never exceed the quantity. -/
theorem sellGross_le (s : GlobalState) (mid oid q : Nat)
    (hoid : oid < (s.markets.getD mid defaultMarket).optionCount) :
    sellGross s mid oid q ≤ q := by
  have h := calculatePrice_le (s.markets.getD mid defaultMarket) oid
    (((s.markets.getD mid defaultMarket).options.getD oid
        defaultOption).totalShares - q / 2) hoid
  simp only [sellGross]
  calc q * calculatePrice (s.markets.getD mid defaultMarket) oid
        (((s.markets.getD mid defaultMarket).options.getD oid
          defaultOption).totalShares - q / 2) / SCALE
      ≤ q * SCALE / SCALE :=
        Nat.div_le_div_right (Nat.mul_le_mul_left q h)
    _ = q := Nat.mul_div_cancel q (by norm_num [SCALE])

/-- Recomputed prices across a market sum to 1e18 up to one unit of
rounding loss per option. -/
theorem priceSum_bounds (m : Market) (hT : 0 < totalSharesAll m) :
    SCALE ≤ priceSum m + m.optionCount ∧ priceSum m ≤ SCALE := by
  have hps : priceSum m = ((List.range m.optionCount).map
      (fun i => (m.options.getD i defaultOption).totalShares * SCALE /
        totalSharesAll m)).sum := by
    unfold priceSum
    congr 1
    apply List.map_congr_left
    intro i hi
    simp only [recomputedPrice, calculatePrice]
    rw [weightedTotal_self]
    rw [if_neg (by omega)]
  have hmm : ((List.range m.optionCount).map
      (fun i => (m.options.getD i defaultOption).totalShares * SCALE /
        totalSharesAll m)).sum =
      (((List.range m.optionCount).map
        (fun i => (m.options.getD i defaultOption).totalShares * SCALE)).map
          (fun x => x / totalSharesAll m)).sum := by
    rw [List.map_map]
    rfl
  have hsum : ((List.range m.optionCount).map
      (fun i => (m.options.getD i defaultOption).totalShares * SCALE)).sum =
      totalSharesAll m * SCALE := by
    unfold totalSharesAll
    rw [← List.sum_map_mul_right]
  have hup := list_sum_div_le ((List.range m.optionCount).map
    (fun i => (m.options.getD i defaultOption).totalShares * SCALE))
    (totalSharesAll m)
  have hlo := list_div_sum_le ((List.range m.optionCount).map
    (fun i => (m.options.getD i defaultOption).totalShares * SCALE))
    (totalSharesAll m) hT
  rw [hsum] at hup hlo
  rw [Nat.mul_div_cancel_left SCALE hT] at hup hlo
  simp only [List.length_map, List.length_range] at hlo
  rw [hps, hmm]
  omega

-- ============ Concrete executions used by the claims ============

/-- Scenario A of the specification: create a 2-option STANDARD market with
initial liquidity 1000 and duration one day, then user 1 buys 100 shares of
option 0 (cost 52, fee 1). -/
def scenarioOps : List Op :=
  [ .create 0 "q" "d" ["a", "b"] ["x", "y"] 86400 .STANDARD 1000 false 0 0 0,
    .buy 1 0 0 100 SCALE 1000 1 ]

/-- The state after scenario A. -/
def scenarioState : GlobalState := runOps initState scenarioOps

/-- Scenario A followed by a sell of 50 of user 1's shares of option 0
(gross proceeds 26, fee 0). -/
def tradeOps : List Op := scenarioOps ++ [.sell 1 0 0 50 0 0 2]

/-- The state after scenario A plus the sell. -/
def tradeState : GlobalState := runOps initState tradeOps

/-- A one-hour 2-option market, one buy by user 1, and a resolution of
option 0 at the end time. -/
def resolvedOps : List Op :=
  [ .create 0 "q" "d" ["a", "b"] ["x", "y"] 3600 .STANDARD 1000 false 0 0 0,
    .buy 1 0 0 100 SCALE 1000 1,
    .resolve 0 0 3600 ]

/-- The state after the resolved-market run. -/
def resolvedState : GlobalState := runOps initState resolvedOps

/-- A 3-option market in which user 1 buys only shares of option 2. -/
def threeOptOps : List Op :=
  [ .create 0 "q" "d" ["a", "b", "c"] ["x", "y", "z"] 3600 .STANDARD 1200
      false 0 0 0,
    .buy 1 0 2 100 SCALE 1200 1 ]

/-- The state after the 3-option run. -/
def threeOptState : GlobalState := runOps initState threeOptOps

-- ============ Claim C1 ============

/-- C1 counterexample: the conservation identity of the claim fails on the
code. After creating a 2-option market with initial liquidity 1000 and
executing one buy (cost 52, fee 1) and one sell (gross proceeds 26, fee 0,
net 26), the engine holds 1027 tokens for the market, while
`adminInitialLiquidity + userLiquidity − feesWithdrawn − winningsPaid −
adminLiquidityWithdrawn = 1000 + 52 − 0 − 0 − 0 = 1052`: the fee pulled on
the buy stays in custody without appearing in the identity, and the sell
pays out proceeds without reducing `userLiquidity`. -/
theorem claim_C1_counterexample :
    ((tradeState.markets.getD 0 defaultMarket).ledgerBalance = 1027 ∧
      (tradeState.markets.getD 0 defaultMarket).adminInitialLiquidity =
        1000 ∧
      (tradeState.markets.getD 0 defaultMarket).userLiquidity = 52 ∧
      (tradeState.markets.getD 0 defaultMarket).winningsPaid = 0 ∧
      (tradeState.markets.getD 0 defaultMarket).adminLiquidityClaimed =
        false ∧
      tradeState.totalWithdrawnPlatformFees = 0) ∧
    (tradeState.markets.getD 0 defaultMarket).ledgerBalance ≠
      ((tradeState.markets.getD 0 defaultMarket).adminInitialLiquidity :
        Int) +
      ((tradeState.markets.getD 0 defaultMarket).userLiquidity : Int) := by
  decide

/-- C1 amended: in every reachable state, every market's held token balance
equals `adminInitialLiquidity + userLiquidity + platformFeesCollected −
grossSellProceeds − winningsPaid − (adminInitialLiquidity if the admin
liquidity was withdrawn)`: accrued fees stay in the balance until the
global withdrawal, and sells pay out gross proceeds minus fee without
reducing `userLiquidity`. -/
theorem claim_C1 (s : GlobalState) (h : Reachable s) :
    conservationOk s = true :=
  conservation_reachable s h

/-- Witness for C1 at the concrete create-buy-sell run. -/
theorem claim_C1_witness : conservationOk tradeState = true :=
  claim_C1 tradeState ⟨tradeOps, rfl⟩

-- ============ Claim C2 ============

/-- C2: in every reachable state — in particular after every sequence of
operations performed before any fee withdrawal — the fee ledger satisfies
`totalPlatformFeesCollected = totalLockedPlatformFees +
totalUnlockedPlatformFees`, and a successful `invalidateMarket` removes
exactly the market's accrued `platformFeesCollected` from both the locked
and the collected totals (leaving the unlocked total unchanged), the
amounts being covered so the subtraction is exact. -/
theorem claim_C2 (s : GlobalState) (h : Reachable s) :
    feePartitionOk s = true ∧
    ∀ mid s1, invalidateMarket s mid = .ok s1 →
      ((s.markets.getD mid defaultMarket).platformFeesCollected ≤
          s.totalLockedPlatformFees ∧
        (s.markets.getD mid defaultMarket).platformFeesCollected ≤
          s.totalPlatformFeesCollected) ∧
      s1.totalLockedPlatformFees = s.totalLockedPlatformFees -
        (s.markets.getD mid defaultMarket).platformFeesCollected ∧
      s1.totalPlatformFeesCollected = s.totalPlatformFeesCollected -
        (s.markets.getD mid defaultMarket).platformFeesCollected ∧
      s1.totalUnlockedPlatformFees = s.totalUnlockedPlatformFees := by
  refine ⟨feePartition_reachable s h, ?_⟩
  intro mid s1 hap
  obtain ⟨h1, h2, h3, h4, rfl⟩ := invalidateMarket_ok_elim hap
  exact ⟨⟨h3, h4⟩, rfl, rfl, rfl⟩

/-- Witness for C2 at the concrete create-buy-sell run followed by an
invalidation of market 0. -/
theorem claim_C2_witness :
    feePartitionOk tradeState = true ∧
    (invalidateApply tradeState 0).totalPlatformFeesCollected =
      tradeState.totalPlatformFeesCollected -
        (tradeState.markets.getD 0 defaultMarket).platformFeesCollected := by
  have h := claim_C2 tradeState ⟨tradeOps, rfl⟩
  have h2 := h.2 0 (invalidateApply tradeState 0) (by rfl)
  exact ⟨h.1, h2.2.2.1⟩

-- ============ Claim C3 ============

/-- C3 counterexample: stored prices do not stay summing to ≈1 and the
non-traded option's stored price does not fall. In scenario A (2-option
market, both stored prices 0.5e18, buy 100 shares of option 0), the code
refreshes only option 0's stored price (to ≈0.545e18) and leaves option 1's
stored price at exactly 0.5e18, so the stored prices sum to
≈1.045e18 — off from 1e18 by ≈4.5e16, far beyond any small fixed
tolerance — and option 1's stored price did not drop below 0.5e18. -/
theorem claim_C3_counterexample :
    ((scenarioState.markets.getD 0 defaultMarket).options.getD 0
      defaultOption).currentPrice = 545454545454545454 ∧
    ((scenarioState.markets.getD 0 defaultMarket).options.getD 1
      defaultOption).currentPrice = 500000000000000000 ∧
    ¬(((scenarioState.markets.getD 0 defaultMarket).options.getD 1
      defaultOption).currentPrice < SCALE / 2) ∧
    ((scenarioState.markets.getD 0 defaultMarket).options.getD 0
        defaultOption).currentPrice +
      ((scenarioState.markets.getD 0 defaultMarket).options.getD 1
        defaultOption).currentPrice = 1045454545454545454 := by
  decide

/-- C3 amended: the prices RECOMPUTED from the current share counts (as
`_calculatePrice` returns them) sum to 1e18 within `optionCount` units of
rounding for every market with shares outstanding; in scenario A the traded
option's stored price rises above 0.5e18 and the non-traded option's
recomputed price falls below 0.5e18, but its STORED price stays unchanged
at 0.5e18 because `_updatePrice` touches only the traded option. -/
theorem claim_C3 :
    (∀ m : Market, 0 < totalSharesAll m →
      SCALE ≤ priceSum m + m.optionCount ∧ priceSum m ≤ SCALE) ∧
    (((scenarioState.markets.getD 0 defaultMarket).options.getD 0
        defaultOption).currentPrice > SCALE / 2 ∧
      recomputedPrice (scenarioState.markets.getD 0 defaultMarket) 1 <
        SCALE / 2 ∧
      ((scenarioState.markets.getD 0 defaultMarket).options.getD 1
        defaultOption).currentPrice = SCALE / 2) := by
  refine ⟨fun m hT => priceSum_bounds m hT, ?_⟩
  refine ⟨by decide, by decide, by decide⟩

/-- Witness for C3 at the concrete scenario-A market. -/
theorem claim_C3_witness :
    SCALE ≤ priceSum (scenarioState.markets.getD 0 defaultMarket) +
      (scenarioState.markets.getD 0 defaultMarket).optionCount ∧
    priceSum (scenarioState.markets.getD 0 defaultMarket) ≤ SCALE :=
  claim_C3.1 (scenarioState.markets.getD 0 defaultMarket) (by decide)

-- ============ Claim C4 ============

/-- C4: in every reachable state no market is both resolved and
invalidated, and from any reachable state, under every further call
sequence, a resolved market stays resolved and never becomes invalidated,
and an invalidated market stays invalidated and never becomes resolved. -/
theorem claim_C4 (s : GlobalState) (h : Reachable s) :
    exclusivityOk s = true ∧
    ∀ (ops : List Op) (mid : Nat),
      ((s.markets.getD mid defaultMarket).resolved = true →
        ((runOps s ops).markets.getD mid defaultMarket).resolved = true ∧
        ((runOps s ops).markets.getD mid defaultMarket).invalidated =
          false) ∧
      ((s.markets.getD mid defaultMarket).invalidated = true →
        ((runOps s ops).markets.getD mid defaultMarket).invalidated =
          true ∧
        ((runOps s ops).markets.getD mid defaultMarket).resolved =
          false) := by
  have hex := exclusivity_reachable s h
  refine ⟨hex, fun ops mid => ?_⟩
  have hf := flags_runOps s ops mid
  by_cases hmid : mid < s.markets.length
  · have hx : (!((s.markets.getD mid defaultMarket).resolved &&
        (s.markets.getD mid defaultMarket).invalidated)) = true :=
      all_getD hex hmid defaultMarket
    constructor
    · intro hres
      obtain ⟨hr1, hr2⟩ := hf.1 hres
      refine ⟨hr1, ?_⟩
      rw [hr2]
      cases hi : (s.markets.getD mid defaultMarket).invalidated
      · rfl
      · rw [hres, hi] at hx
        exact absurd hx (by decide)
    · intro hinv
      obtain ⟨hi1, hi2⟩ := hf.2 hinv
      refine ⟨hi1, ?_⟩
      rw [hi2]
      cases hr : (s.markets.getD mid defaultMarket).resolved
      · rfl
      · rw [hr, hinv] at hx
        exact absurd hx (by decide)
  · have hd : s.markets.getD mid defaultMarket = defaultMarket :=
      getD_of_le_length (by omega)
    rw [hd]
    constructor
    · intro hres
      exact absurd hres (by decide)
    · intro hinv
      exact absurd hinv (by decide)

/-- Witness for C4 at the concrete resolved-market run, followed by an
invalidation attempt. -/
theorem claim_C4_witness :
    exclusivityOk resolvedState = true ∧
    ((runOps resolvedState [Op.invalidate 0]).markets.getD 0
      defaultMarket).resolved = true ∧
    ((runOps resolvedState [Op.invalidate 0]).markets.getD 0
      defaultMarket).invalidated = false := by
  have h := claim_C4 resolvedState ⟨resolvedOps, rfl⟩
  have h2 := (h.2 [Op.invalidate 0] 0).1 (by decide)
  exact ⟨h.1, h2.1, h2.2⟩

-- ============ Claim C5 ============

/-- C5: a successful `claimWinnings` pays exactly the caller's winning-
option shares times `PAYOUT_PER_SHARE` (scaled by 1e18) into the
portfolio's winnings and the market's paid-out total, and sets the claim
latch (the contract sets it before issuing the transfer); the immediately
repeated call fails with a StateError; and after any further call sequence
the latch is still set and no `claimWinnings` for the same (market, caller)
can succeed again — so the total paid never exceeds
`winningShares × payoutPerShare`. -/
theorem claim_C5 (s : GlobalState) (caller mid : Nat) (s1 : GlobalState)
    (hap : claimWinnings s caller mid = .ok s1) :
    (s1.userPortfolios caller).totalWinnings =
      (s.userPortfolios caller).totalWinnings +
        s.userShares caller mid
          (s.markets.getD mid defaultMarket).winningOptionId *
          PAYOUT_PER_SHARE / SCALE ∧
    (s1.markets.getD mid defaultMarket).winningsPaid =
      (s.markets.getD mid defaultMarket).winningsPaid +
        s.userShares caller mid
          (s.markets.getD mid defaultMarket).winningOptionId *
          PAYOUT_PER_SHARE / SCALE ∧
    s1.hasClaimedWinnings mid caller = true ∧
    claimWinnings s1 caller mid = .error .stateError ∧
    ∀ ops : List Op,
      (runOps s1 ops).hasClaimedWinnings mid caller = true ∧
      ∀ s2, claimWinnings (runOps s1 ops) caller mid ≠ .ok s2 := by
  obtain ⟨h1, h2, h3, h4, h5, rfl⟩ := claimWinnings_ok_elim hap
  have hcl : (claimWApply s caller mid).hasClaimedWinnings mid caller =
      true := by
    dsimp only [claimWApply, update2b]
    simp
  have hsecond : claimWinnings (claimWApply s caller mid) caller mid =
      .error .stateError := by
    have c1 : mid < (claimWApply s caller mid).markets.length := by
      dsimp only [claimWApply]
      simpa using h1
    have c2 : ((claimWApply s caller mid).markets.getD mid
        defaultMarket).resolved = true := by
      dsimp only [claimWApply]
      rw [getD_set_self h1]
      exact h2
    have c3 : ((claimWApply s caller mid).markets.getD mid
        defaultMarket).invalidated = false := by
      dsimp only [claimWApply]
      rw [getD_set_self h1]
      exact h3
    unfold claimWinnings
    rw [if_pos c1, if_pos c2, if_pos c3, if_neg (by simp [hcl])]
  refine ⟨?_, ?_, hcl, hsecond, ?_⟩
  · dsimp only [claimWApply]
    simp
  · dsimp only [claimWApply]
    rw [getD_set_self h1]
  · intro ops
    refine ⟨latch_runOps _ ops mid caller hcl, ?_⟩
    intro s2 hok
    obtain ⟨-, -, -, hcl2, -, -⟩ := claimWinnings_ok_elim hok
    rw [latch_runOps _ ops mid caller hcl] at hcl2
    exact absurd hcl2 (by decide)

/-- Witness for C5 at the concrete resolved-market run: user 1 claims the
100 winning shares of market 0 once, and the second call fails. -/
theorem claim_C5_witness :
    (claimWApply resolvedState 1 0).hasClaimedWinnings 0 1 = true ∧
    claimWinnings (claimWApply resolvedState 1 0) 1 0 =
      .error .stateError := by
  have h := claim_C5 resolvedState 1 0 (claimWApply resolvedState 1 0) rfl
  exact ⟨h.2.2.1, h.2.2.2.1⟩

-- ============ Claim C6 ============

/-- C6: evidence of the code bug. In a 3-option market where user 1 holds
100 shares of option 2 and none of options 0 and 1, `disputeMarket` fails
with the participation error even though the market exists, is unresolved,
and the caller holds a nonzero position in the market: the contract checks
only the fixed option indices 0 and 1. -/
theorem claim_C6 :
    (threeOptState.markets.getD 0 defaultMarket).optionCount = 3 ∧
    (threeOptState.markets.getD 0 defaultMarket).resolved = false ∧
    threeOptState.userShares 1 0 2 = 100 ∧
    threeOptState.userShares 1 0 0 = 0 ∧
    threeOptState.userShares 1 0 1 = 0 ∧
    disputeMarket threeOptState 1 0 = .error .authorizationError := by
  refine ⟨by decide, by decide, by decide, by decide, by decide, rfl⟩

-- ============ Claim C7 ============

/-- C7: a successful sell of quantity q against a held position of s shares
with cost basis c reduces the caller's shares by q and the cost basis by
exactly `c * q / s` (the pre-sell share count as denominator), adds
`net − c * q / s` to the portfolio's realized PnL where
`net = proceeds − fee`, and transfers exactly `net` out of the market's
held balance. -/
theorem claim_C7 (s : GlobalState) (caller mid oid q mpps mtp now : Nat)
    (s1 : GlobalState)
    (hap : sellShares s caller mid oid q mpps mtp now = .ok s1) :
    q ≤ s.userShares caller mid oid ∧
    s1.userShares caller mid oid = s.userShares caller mid oid - q ∧
    s1.userCostBasis caller mid oid =
      s.userCostBasis caller mid oid -
        s.userCostBasis caller mid oid * q / s.userShares caller mid oid ∧
    (s1.userPortfolios caller).realizedPnL =
      (s.userPortfolios caller).realizedPnL +
        (((sellGross s mid oid q -
            sellGross s mid oid q * s.platformFeeRate / 1000 : Nat) :
            Int) -
          ((s.userCostBasis caller mid oid * q /
            s.userShares caller mid oid : Nat) : Int)) ∧
    (s1.markets.getD mid defaultMarket).ledgerBalance =
      (s.markets.getD mid defaultMarket).ledgerBalance -
        ((sellGross s mid oid q -
          sellGross s mid oid q * s.platformFeeRate / 1000 : Nat) :
          Int) := by
  obtain ⟨h1, h2, h3, h4, h5, h6, h7, h8, rfl⟩ := sellShares_ok_elim hap
  have hd : s.userShares caller mid oid - q + q =
      s.userShares caller mid oid := Nat.sub_add_cancel h7
  refine ⟨h7, ?_, ?_, ?_, ?_⟩
  · dsimp only [sellApply, update3]
    simp
  · dsimp only [sellApply, update3]
    rw [hd]
    simp
  · dsimp only [sellApply, update3]
    rw [hd]
    simp
  · dsimp only [sellApply, updatePrice]
    rw [getD_set_self h1]

/-- Witness for C7 at the concrete scenario-A run: user 1 sells 50 of the
100 held shares (cost basis 52), reducing the cost basis by 52·50/100. -/
theorem claim_C7_witness :
    50 ≤ scenarioState.userShares 1 0 0 ∧
    (sellApply scenarioState 1 0 0 50).userCostBasis 1 0 0 =
      scenarioState.userCostBasis 1 0 0 -
        scenarioState.userCostBasis 1 0 0 * 50 /
          scenarioState.userShares 1 0 0 := by
  have h := claim_C7 scenarioState 1 0 0 50 0 0 2
    (sellApply scenarioState 1 0 0 50) rfl
  exact ⟨h.1, h.2.2.1⟩

-- ============ Claim C8 ============

/-- C8: a zero quantity is rejected by both trading entry points on every
state (a negative quantity cannot be expressed with `uint256`); for every
in-range option index the computed price lies within [0, 1e18]; and the
computed buy cost and gross sell proceeds are never negative — indeed at
most the traded quantity, one token unit per share. -/
theorem claim_C8 :
    (∀ (s : GlobalState) (c mid oid mpps mtc now : Nat),
      ∃ e, buyShares s c mid oid 0 mpps mtc now = .error e) ∧
    (∀ (s : GlobalState) (c mid oid mpps mtp now : Nat),
      ∃ e, sellShares s c mid oid 0 mpps mtp now = .error e) ∧
    (∀ (m : Market) (oid shares : Nat), oid < m.optionCount →
      0 ≤ calculatePrice m oid shares ∧
      calculatePrice m oid shares ≤ SCALE) ∧
    (∀ (m : Market) (oid q : Nat), oid < m.optionCount →
      0 ≤ calculateBuyCost m oid q ∧ calculateBuyCost m oid q ≤ q) ∧
    (∀ (s : GlobalState) (mid oid q : Nat),
      oid < (s.markets.getD mid defaultMarket).optionCount →
      0 ≤ sellGross s mid oid q ∧ sellGross s mid oid q ≤ q) := by
  refine ⟨?_, ?_, ?_, ?_, ?_⟩
  · intro s c mid oid mpps mtc now
    cases hr : buyShares s c mid oid 0 mpps mtc now with
    | ok s1 =>
        obtain ⟨-, -, -, -, -, h6, -, -⟩ := buyShares_ok_elim hr
        omega
    | error e => exact ⟨e, rfl⟩
  · intro s c mid oid mpps mtp now
    cases hr : sellShares s c mid oid 0 mpps mtp now with
    | ok s1 =>
        obtain ⟨-, -, -, -, -, h6, -, -, -⟩ := sellShares_ok_elim hr
        omega
    | error e => exact ⟨e, rfl⟩
  · intro m oid shares hoid
    exact ⟨Nat.zero_le _, calculatePrice_le m oid shares hoid⟩
  · intro m oid q hoid
    exact ⟨Nat.zero_le _, calculateBuyCost_le m oid q hoid⟩
  · intro s mid oid q hoid
    exact ⟨Nat.zero_le _, sellGross_le s mid oid q hoid⟩

/-- Witness for C8 at concrete scenario-A inputs. -/
theorem claim_C8_witness :
    (∃ e, buyShares scenarioState 1 0 0 0 SCALE 1000 1 = .error e) ∧
    calculatePrice (scenarioState.markets.getD 0 defaultMarket) 0 600 ≤
      SCALE ∧
    calculateBuyCost (scenarioState.markets.getD 0 defaultMarket) 0 100 ≤
      100 ∧
    sellGross scenarioState 0 0 50 ≤ 50 := by
  refine ⟨claim_C8.1 scenarioState 1 0 0 SCALE 1000 1, ?_, ?_, ?_⟩
  · exact (claim_C8.2.2.1 (scenarioState.markets.getD 0 defaultMarket) 0
      600 (by decide)).2
  · exact (claim_C8.2.2.2.1 (scenarioState.markets.getD 0 defaultMarket) 0
      100 (by decide)).2
  · exact (claim_C8.2.2.2.2 scenarioState 0 0 50 (by decide)).2

-- ============ Claim C9 ============

/-- C9: on an existing, active, unresolved, uninvalidated market, selling a
positive quantity strictly greater than the caller's held shares of a valid
option fails with the insufficient-resource error, and the reverted call
leaves the whole engine state unchanged with no fund transfer. -/
theorem claim_C9 (s : GlobalState) (caller mid oid q mpps mtp now : Nat)
    (hq : s.userShares caller mid oid < q)
    (hmid : mid < s.markets.length)
    (hnow : now < (s.markets.getD mid defaultMarket).endTime)
    (hres : (s.markets.getD mid defaultMarket).resolved = false)
    (hinv : (s.markets.getD mid defaultMarket).invalidated = false)
    (hoid : oid < (s.markets.getD mid defaultMarket).optionCount)
    (h0 : 0 < q) :
    sellShares s caller mid oid q mpps mtp now =
      .error .insufficientResourceError ∧
    step s (Op.sell caller mid oid q mpps mtp now) = s := by
  have hsell : sellShares s caller mid oid q mpps mtp now =
      .error .insufficientResourceError := by
    unfold sellShares
    rw [if_pos hmid, if_pos hnow, if_pos hres, if_pos hinv, if_pos hoid,
      if_pos h0, if_neg (by omega)]
  refine ⟨hsell, ?_⟩
  unfold step
  simp only [applyOp]
  rw [hsell]

/-- Witness for C9: user 1 holds no shares of option 1 in the scenario-A
market, so selling 1 share of it fails and changes nothing. -/
theorem claim_C9_witness :
    sellShares scenarioState 1 0 1 1 0 0 2 =
      .error .insufficientResourceError ∧
    step scenarioState (Op.sell 1 0 1 1 0 0 2) = scenarioState :=
  claim_C9 scenarioState 1 0 1 1 0 0 2 (by decide) (by decide) (by decide)
    (by decide) (by decide) (by decide) (by decide)

-- ============ Claim C10 ============

/-- Whether a call succeeded. -/
def exceptOkB : Except Err GlobalState → Bool
  | .ok _ => true
  | .error _ => false

/-- Flip the stored `earlyResolutionAllowed` flag of one market. -/
def setEarly (s : GlobalState) (mid : Nat) (b : Bool) : GlobalState :=
  let m1 := { s.markets.getD mid defaultMarket with
    earlyResolutionAllowed := b }
  { s with markets := s.markets.set mid m1 }

/-- C10: `resolveMarket` requires the market's end time to have passed
regardless of `earlyResolutionAllowed`: before the end time resolution
fails on every state (whatever the flag), the flag is stored at creation
(and exposed by the read accessors), and flipping the stored flag never
changes whether `resolveMarket` succeeds. -/
theorem claim_C10 :
    (∀ (s : GlobalState) (mid w now : Nat), mid < s.markets.length →
      now < (s.markets.getD mid defaultMarket).endTime →
      ∃ e, resolveMarket s mid w now = .error e) ∧
    (∀ (s : GlobalState) (c : Nat) (q d : String) (ns ds : List String)
        (dur : Nat) (mt : MarketType) (liq : Nat) (early : Bool)
        (mfp tpp now : Nat) (s1 : GlobalState),
      createMarket s c q d ns ds dur mt liq early mfp tpp now = .ok s1 →
      (s1.markets.getD s.markets.length
        defaultMarket).earlyResolutionAllowed = early) ∧
    (∀ (s : GlobalState) (mid w now : Nat) (b : Bool),
      exceptOkB (resolveMarket (setEarly s mid b) mid w now) =
        exceptOkB (resolveMarket s mid w now)) := by
  refine ⟨?_, ?_, ?_⟩
  · intro s mid w now hmid hnow
    unfold resolveMarket
    rw [if_pos hmid, if_neg (by omega)]
    exact ⟨.stateError, rfl⟩
  · intro s c q d ns ds dur mt liq early mfp tpp now s1 hap
    obtain ⟨-, -, -, -, -, rfl⟩ := createMarket_ok_elim hap
    dsimp only [createApply]
    rw [getD_append_self]
  · intro s mid w now b
    by_cases hmid : mid < s.markets.length
    · have hlen : (setEarly s mid b).markets.length = s.markets.length := by
        dsimp only [setEarly]
        simp
      have hget : (setEarly s mid b).markets.getD mid defaultMarket =
          { s.markets.getD mid defaultMarket with
            earlyResolutionAllowed := b } := by
        dsimp only [setEarly]
        exact getD_set_self hmid
      unfold resolveMarket
      rw [hlen, hget]
      dsimp only [setEarly]
      split_ifs <;> rfl
    · have hset : setEarly s mid b = s := by
        dsimp only [setEarly]
        rw [List.set_eq_of_length_le (by omega)]
      rw [hset]

/-- Witness for C10 at the scenario-A market before its end time, with the
flag forced to true. -/
theorem claim_C10_witness :
    (∃ e, resolveMarket scenarioState 0 0 2 = .error e) ∧
    (∃ e, resolveMarket (setEarly scenarioState 0 true) 0 0 2 =
      .error e) ∧
    exceptOkB (resolveMarket (setEarly scenarioState 0 true) 0 0 2) =
      exceptOkB (resolveMarket scenarioState 0 0 2) := by
  refine ⟨claim_C10.1 scenarioState 0 0 2 (by decide) (by decide),
    claim_C10.1 (setEarly scenarioState 0 true) 0 0 2 (by decide)
      (by decide),
    claim_C10.2.2 scenarioState 0 0 2 true⟩

end Predicta
